import Mathlib

/-!
# TDEE tracker (`app.js`): embedding and verification

A finite JavaScript number is modelled by its mathematical value, a rational (`ℚ`): the
rounding of results to 53 bits and the sign of zero are not modelled.  The series
computation is given twice: `computeSeries` on exact rationals, and `computeSeriesNumber` on
`JSNumber`, which adds ±Infinity and NaN and the overflow of a result to ±Infinity; the
summary, which tests `isFinite`, is built on the second, and the two agree wherever the
second is finite.  A `Date` object is modelled by its time value, `Option Int`
(milliseconds since the epoch, `none` for an Invalid Date).  The local time zone of the
host is a parameter `tz`, the map from a local time value to the zone offset (in
milliseconds) in force at that local time.
-/

namespace TDEE

/-! ## Data model -/

/-- The constant `KCALS_PER_KG` (app.js line 2). -/
def KCALS_PER_KG : ℚ := 7700

/-- One stored observation `{date, weight, calories}` (app.js line 7). -/
structure Entry where
  date : String
  weight : ℚ
  calories : ℚ
  deriving DecidableEq

/-- One row pushed by `computeSeries` (app.js line 55). -/
structure SeriesPoint where
  date : String
  tdee : ℚ
  target : ℚ
  avgIntake : ℚ
  windowCount : Nat
  deriving DecidableEq

/-- The global `settings` object (app.js line 8). -/
structure Settings where
  goalKgPerWeek : ℚ
  windowDays : ℚ
  deriving DecidableEq

/-! ## Numbers with overflow -/

/-- The least magnitude that is rounded to ±Infinity: `2 ^ 1024 - 2 ^ 970`, half a unit in
the last place above the largest finite Number, written out in decimal. -/
def overflowBound : Nat :=
  179769313486231580793728971405303415079934132710037826936173778980444968292764750946649017977587207096330286416692887910946555547851940402630657488671505820681908902000708383676273854845817711531764475730270069855571366959622842914819860834936475292719074168444365510704342711559699508093042880177904174497792

/-- A Number value: a finite number (`fin`, with its mathematical value), ±Infinity or
NaN. -/
inductive JSNumber where
  | fin (q : ℚ)
  | posInf
  | negInf
  | nan
  deriving DecidableEq

/-- The Number that an exact result is rounded to, as far as overflow goes: ±Infinity from
`overflowBound` on. -/
def JSNumber.ofRat (q : ℚ) : JSNumber :=
  if |q| < (overflowBound : ℚ) then .fin q else if q < 0 then .negInf else .posInf

/-- The global `isFinite` on a Number. -/
def JSNumber.isFinite : JSNumber → Bool
  | .fin _ => true
  | _ => false

/-- Unary minus. -/
def JSNumber.neg : JSNumber → JSNumber
  | .fin a => .fin (-a)
  | .posInf => .negInf
  | .negInf => .posInf
  | .nan => .nan

/-- The operator `+` on Numbers. -/
def JSNumber.add (x y : JSNumber) : JSNumber :=
  match x, y with
  | .fin a, .fin b => JSNumber.ofRat (a + b)
  | .fin _, .posInf => .posInf
  | .fin _, .negInf => .negInf
  | .posInf, .fin _ => .posInf
  | .negInf, .fin _ => .negInf
  | .posInf, .posInf => .posInf
  | .negInf, .negInf => .negInf
  | _, _ => .nan

/-- The operator `-` on Numbers. -/
def JSNumber.sub (x y : JSNumber) : JSNumber := x.add y.neg

/-- The operator `*` on Numbers. -/
def JSNumber.mul (x y : JSNumber) : JSNumber :=
  match x, y with
  | .fin a, .fin b => JSNumber.ofRat (a * b)
  | .fin a, .posInf => if a = 0 then .nan else if 0 < a then .posInf else .negInf
  | .fin a, .negInf => if a = 0 then .nan else if 0 < a then .negInf else .posInf
  | .posInf, .fin b => if b = 0 then .nan else if 0 < b then .posInf else .negInf
  | .negInf, .fin b => if b = 0 then .nan else if 0 < b then .negInf else .posInf
  | .posInf, .posInf => .posInf
  | .posInf, .negInf => .negInf
  | .negInf, .posInf => .negInf
  | .negInf, .negInf => .posInf
  | _, _ => .nan

/-- The operator `/` on Numbers; a zero divisor is taken as `+0`. -/
def JSNumber.div (x y : JSNumber) : JSNumber :=
  match x, y with
  | .fin a, .fin b =>
    if b = 0 then (if a = 0 then .nan else if 0 < a then .posInf else .negInf)
    else JSNumber.ofRat (a / b)
  | .fin _, .posInf => .fin 0
  | .fin _, .negInf => .fin 0
  | .posInf, .fin b => if 0 ≤ b then .posInf else .negInf
  | .negInf, .fin b => if 0 ≤ b then .negInf else .posInf
  | _, _ => .nan

/-! ## Calendar dates and the `Date` built-in -/

/-- Value of an ASCII decimal digit (the regular-expression class `\d`). -/
def digitVal (c : Char) : Option Nat :=
  if c.isDigit then some (c.toNat - 48) else none

/-- Gregorian leap-year rule. -/
def isLeapYear (y : Nat) : Bool :=
  (y % 4 == 0 && y % 100 != 0) || y % 400 == 0

/-- Number of days of month `m` (1 to 12) of year `y`. -/
def daysInMonth (y m : Nat) : Nat :=
  if m = 2 then (if isLeapYear y then 29 else 28)
  else if m = 4 ∨ m = 6 ∨ m = 9 ∨ m = 11 then 30
  else 31

/-- Days of year `y` that precede the first day of month `m`. -/
def daysBeforeMonth (y m : Nat) : Nat :=
  let leap := if isLeapYear y then 1 else 0
  match m with
  | 1 => 0
  | 2 => 31
  | 3 => 59 + leap
  | 4 => 90 + leap
  | 5 => 120 + leap
  | 6 => 151 + leap
  | 7 => 181 + leap
  | 8 => 212 + leap
  | 9 => 243 + leap
  | 10 => 273 + leap
  | 11 => 304 + leap
  | _ => 334 + leap

/-- Days from 0000-01-01 to the first of January of year `y` (proleptic Gregorian). -/
def daysBeforeYear (y : Nat) : Nat :=
  365 * y + (y + 3) / 4 - (y + 99) / 100 + (y + 399) / 400

/-- Day number of the calendar date `y-m-d`, counted from 1970-01-01 (ECMAScript `MakeDay`). -/
def dayFromCivil (y m d : Nat) : Int :=
  ((daysBeforeYear y + daysBeforeMonth y m + (d - 1) : Nat) : Int) - 719528

/-- Splits a string of the exact shape `YYYY-MM-DD` into year, month and day. -/
def parseYMD (s : String) : Option (Nat × Nat × Nat) :=
  match s.data with
  | [y1, y2, y3, y4, h1, m1, m2, h2, d1, d2] =>
    if h1 = '-' ∧ h2 = '-' then
      match digitVal y1, digitVal y2, digitVal y3, digitVal y4,
            digitVal m1, digitVal m2, digitVal d1, digitVal d2 with
      | some a, some b, some c, some d, some e, some f, some g, some h =>
        some (1000 * a + 100 * b + 10 * c + d, 10 * e + f, 10 * g + h)
      | _, _, _, _, _, _, _, _ => none
    else none
  | _ => none

/-- Day number of a valid calendar date written `YYYY-MM-DD`; `none` for any other string. -/
def dayNumber (s : String) : Option Int :=
  match parseYMD s with
  | some (y, m, d) =>
    if 1 ≤ m ∧ m ≤ 12 ∧ 1 ≤ d ∧ d ≤ daysInMonth y m then some (dayFromCivil y m d) else none
  | none => none

/-- A string is a valid calendar date in `YYYY-MM-DD` form. -/
def validDate (s : String) : Prop := (dayNumber s).isSome = true

instance (s : String) : Decidable (validDate s) := by
  unfold validDate; infer_instance

/-- Local time zone of the host: offset from UTC (ms) in force at a local time value. -/
abbrev Zone := Int → Int

/-- ECMAScript `TimeClip` on an integral time value. -/
def timeClip (t : Int) : Option Int :=
  if t.natAbs ≤ 8640000000000000 then some t else none

/-- The function `fmtDate` (app.js line 11): `new Date(d + 'T00:00:00')`, a date-time
without offset, read as local time: the time value is the local midnight of `d` moved
to UTC by the zone offset in force at that local midnight.  Strings that are not a valid
`YYYY-MM-DD` calendar date give an Invalid Date (the date-time format of ECMAScript read
strictly; the lenient fallbacks of some engines are not modelled). -/
def fmtDate (tz : Zone) (d : String) : Option Int :=
  match dayNumber d with
  | some n => timeClip (n * 86400000 - tz (n * 86400000))
  | none => none

/-- `new Date(v)` for a numeric `v`: `TimeClip` rejects values beyond ±8.64e15 and
truncates the others toward zero. -/
def newDate (v : ℚ) : Option Int :=
  if |v| ≤ 8640000000000000 then some (v.num.tdiv v.den) else none

/-- Comparison `a >= b` of two `Date` objects (false when either is an Invalid Date). -/
def dateGe (a b : Option Int) : Bool :=
  match a, b with
  | some x, some y => decide (y ≤ x)
  | _, _ => false

/-- Comparison `a <= b` of two `Date` objects (false when either is an Invalid Date). -/
def dateLe (a b : Option Int) : Bool :=
  match a, b with
  | some x, some y => decide (x ≤ y)
  | _, _ => false

/-! ## Sorting -/

/-- The method `localeCompare` on date strings, as code-point order; on strings of the shape
`YYYY-MM-DD` (digits and hyphens at fixed places) collation and code-point order agree. -/
def localeCompare (a b : String) : Int :=
  if a.data < b.data then -1 else if b.data < a.data then 1 else 0

/-- The comparator of `sortEntries` puts `a` no later than `b`. -/
def dateOrd (a b : Entry) : Prop := localeCompare a.date b.date ≤ 0

instance : DecidableRel dateOrd := fun a b => by
  unfold dateOrd; infer_instance

/-- The function `sortEntries` (app.js line 19): a stable sort of a copy by `date`. -/
def sortEntries (arr : List Entry) : List Entry :=
  arr.insertionSort dateOrd

/-! ## The series computation -/

/-- The `window` of the loop body (app.js lines 38-43). -/
def window (tz : Zone) (sorted : List Entry) (windowDays : ℚ) (cur : Entry) : List Entry :=
  let curDate := fmtDate tz cur.date
  let windowStart : Option Int :=
    match curDate with
    | some t => newDate ((t : ℚ) - windowDays * 86400000)
    | none => none
  sorted.filter (fun e =>
    let ed := fmtDate tz e.date
    dateGe ed windowStart && dateLe ed curDate)

/-- The `avgIntake` of the loop body (app.js line 44). -/
def avgIntake (w : List Entry) : ℚ :=
  (w.foldl (fun sum e => sum + e.calories) 0) / (if w.length = 0 then 1 else (w.length : ℚ))

/-- The `days` of the loop body (app.js lines 47-49); entries of a window always have a
valid date, so the last branch is never taken on a window. -/
def spanDays (tz : Zone) (first last : Entry) : ℚ :=
  match fmtDate tz last.date, fmtDate tz first.date with
  | some l, some f => max 1 (((l - f : Int) : ℚ) / 86400000)
  | _, _ => 1

/-- The `tdee` of the loop body (app.js lines 45-53). -/
def tdeeOf (tz : Zone) (w : List Entry) : ℚ :=
  match w.head?, w.getLast? with
  | some first, some last =>
    if 2 ≤ w.length then
      let days := spanDays tz first last
      let deltaW := last.weight - first.weight
      let dWperDay := deltaW / days
      avgIntake w + dWperDay * KCALS_PER_KG
    else avgIntake w
  | _, _ => avgIntake w

/-- One iteration of the loop of `computeSeries` (app.js lines 37-55). -/
def seriesPoint (tz : Zone) (sorted : List Entry) (goalDeltaPerDay windowDays : ℚ)
    (cur : Entry) : SeriesPoint :=
  let w := window tz sorted windowDays cur
  { date := cur.date
    tdee := tdeeOf tz w
    target := avgIntake w - goalDeltaPerDay
    avgIntake := avgIntake w
    windowCount := w.length }

/-- The function `computeSeries` (app.js lines 30-58). -/
def computeSeries (tz : Zone) (entries : List Entry) (goalKgPerWeek windowDays : ℚ) :
    List SeriesPoint :=
  if entries.length = 0 then []
  else
    let sorted := sortEntries entries
    let goalDeltaPerDay := (goalKgPerWeek / 7) * KCALS_PER_KG
    sorted.map (seriesPoint tz sorted goalDeltaPerDay windowDays)

/-! ## Two concrete zones -/

/-- A host on UTC. -/
def zoneUTC : Zone := fun _ => 0

/-- US Eastern time around the end of daylight saving on 2024-11-03: UTC-4 for local
times before 02:00 of that day, UTC-5 from then on. -/
def zoneEastern : Zone := fun tLocal =>
  if tLocal < 1730599200000 then -14400000 else -18000000

/-! ## Strings -/

/-- Characters removed by `trim` and skipped by `parseFloat`: ECMAScript `WhiteSpace`
and `LineTerminator`. -/
def isJSWhitespace (c : Char) : Bool :=
  let n := c.toNat
  n = 0x09 || n = 0x0A || n = 0x0B || n = 0x0C || n = 0x0D || n = 0x20 || n = 0xA0 ||
  n = 0x1680 || (0x2000 ≤ n && n ≤ 0x200A) || n = 0x2028 || n = 0x2029 || n = 0x202F ||
  n = 0x205F || n = 0x3000 || n = 0xFEFF

/-- The method `trim`. -/
def trim (cs : List Char) : List Char :=
  ((cs.dropWhile isJSWhitespace).reverse.dropWhile isJSWhitespace).reverse

/-- The method `split` with a one-character separator. -/
def splitOn (sep : Char) : List Char → List (List Char)
  | [] => [[]]
  | c :: cs =>
    if c = sep then [] :: splitOn sep cs
    else
      match splitOn sep cs with
      | [] => [[c]]
      | h :: t => (c :: h) :: t

/-- One character of `toLowerCase`: the ASCII capitals and the Kelvin sign are the only
characters whose lower case is an ASCII letter; other characters, whose lower case is not
ASCII, are left as they are (header names are only compared with ASCII names). -/
def toLowerChar (c : Char) : Char :=
  if c = Char.ofNat 0x212A then 'k' else c.toLower

/-- The method `toLowerCase`. -/
def toLowerCase (cs : List Char) : List Char := cs.map toLowerChar

/-- The method `findIndex`; `none` stands for the result `-1`. -/
def findIndex {α : Type} (p : α → Bool) : List α → Option Nat
  | [] => none
  | x :: xs => if p x then some 0 else (findIndex p xs).map (· + 1)

/-- Value of a run of decimal digits. -/
def digitsValue (ds : List Char) : Nat :=
  ds.foldl (fun n c => 10 * n + (c.toNat - 48)) 0

/-- The `ExponentPart` of a decimal literal, when the text starts with one: its value. -/
def exponentPart (cs : List Char) : Option Int :=
  match cs with
  | e :: rest =>
    if e = 'e' ∨ e = 'E' then
      match rest with
      | sg :: rest2 =>
        if sg = '-' then
          (if (rest2.takeWhile Char.isDigit).isEmpty then none
           else some (-(digitsValue (rest2.takeWhile Char.isDigit) : Int)))
        else if sg = '+' then
          (if (rest2.takeWhile Char.isDigit).isEmpty then none
           else some (digitsValue (rest2.takeWhile Char.isDigit) : Int))
        else
          (if (rest.takeWhile Char.isDigit).isEmpty then none
           else some (digitsValue (rest.takeWhile Char.isDigit) : Int))
      | [] => none
    else none
  | [] => none

/-- Ten to an integer power, as a rational. -/
def pow10 (e : Int) : ℚ :=
  if 0 ≤ e then (10 : ℚ) ^ e.toNat else 1 / (10 : ℚ) ^ (-e).toNat

/-- A signed decimal numeral `± mant × 10 ^ exp`, the mathematical value of a literal. -/
structure Decimal where
  neg : Bool
  mant : Nat
  exp : Int
  deriving DecidableEq

/-- The number a decimal numeral denotes. -/
def Decimal.toRat (d : Decimal) : ℚ :=
  (if d.neg then -1 else 1) * (d.mant : ℚ) * pow10 d.exp

/-- The number a decimal numeral denotes is within the range of finite Numbers: its magnitude
is below `overflowBound`. -/
def Decimal.inRange (d : Decimal) : Bool :=
  if 0 ≤ d.exp then decide (d.mant * 10 ^ d.exp.toNat < overflowBound)
  else decide (d.mant < overflowBound * 10 ^ (-d.exp).toNat)

/-- Longest prefix that is a `StrUnsignedDecimalLiteral` other than `Infinity`, read as
mantissa and exponent; `none` when there is no such prefix. -/
def parseUnsigned (cs : List Char) : Option (Nat × Int) :=
  let ip := cs.takeWhile Char.isDigit
  let r1 := cs.dropWhile Char.isDigit
  match r1 with
  | dot :: r2 =>
    if dot = '.' then
      let fp := r2.takeWhile Char.isDigit
      let r3 := r2.dropWhile Char.isDigit
      if ip.isEmpty ∧ fp.isEmpty then none
      else
        match exponentPart r3 with
        | some e => some (digitsValue (ip ++ fp), e - (fp.length : Int))
        | none => some (digitsValue (ip ++ fp), -(fp.length : Int))
    else if ip.isEmpty then none
    else
      match exponentPart r1 with
      | some e => some (digitsValue ip, e)
      | none => some (digitsValue ip, 0)
  | [] => if ip.isEmpty then none else some (digitsValue ip, 0)

/-- The numeral read by `parseFloat`: leading white space skipped, then the longest prefix
that is a `StrDecimalLiteral`. -/
def parseDecimal (s : List Char) : Option Decimal :=
  match s.dropWhile isJSWhitespace with
  | sg :: rest =>
    if sg = '-' then (parseUnsigned rest).map (fun r => ⟨true, r.1, r.2⟩)
    else if sg = '+' then (parseUnsigned rest).map (fun r => ⟨false, r.1, r.2⟩)
    else (parseUnsigned (sg :: rest)).map (fun r => ⟨false, r.1, r.2⟩)
  | [] => none

/-- The sign of the literal `Infinity` read by `parseFloat` (`true` for a minus sign):
leading white space skipped, then an optional sign and the word; `none` when the text does
not start so. -/
def parseInfinity (s : List Char) : Option Bool :=
  match s.dropWhile isJSWhitespace with
  | sg :: rest =>
    if sg = '-' then (if "Infinity".data.isPrefixOf rest then some true else none)
    else if sg = '+' then (if "Infinity".data.isPrefixOf rest then some false else none)
    else if "Infinity".data.isPrefixOf (sg :: rest) then some false else none
  | [] => none

/-- The global `parseFloat`, on the characters of its argument, as a Number: the value of
the numeral read, ±Infinity when the numeral is beyond the range of finite Numbers or is the
literal `Infinity`, NaN when there is no numeric prefix. -/
def parseFloatNumber (s : List Char) : JSNumber :=
  match parseDecimal s with
  | some d => if d.inRange then .fin d.toRat else if d.neg then .negInf else .posInf
  | none =>
    match parseInfinity s with
    | some neg => if neg then .negInf else .posInf
    | none => .nan

/-- The result of `parseFloat` when `isFinite` accepts it; `none` stands for NaN and
±Infinity. -/
def parseFloatChars (s : List Char) : Option ℚ :=
  match parseFloatNumber s with
  | .fin q => some q
  | _ => none

/-- The global `parseFloat`. -/
def parseFloat (s : String) : Option ℚ := parseFloatChars s.data

/-! ## CSV import and export -/

/-- The ten characters matched by `\d{4}-\d{2}-\d{2}` at the start of the text, if any. -/
def isoShapePrefix (cs : List Char) : Option (List Char) :=
  match cs with
  | y1 :: y2 :: y3 :: y4 :: h1 :: m1 :: m2 :: h2 :: d1 :: d2 :: _ =>
    if y1.isDigit ∧ y2.isDigit ∧ y3.isDigit ∧ y4.isDigit ∧ h1 = '-' ∧
        m1.isDigit ∧ m2.isDigit ∧ h2 = '-' ∧ d1.isDigit ∧ d2.isDigit
    then some [y1, y2, y3, y4, h1, m1, m2, h2, d1, d2]
    else none
  | _ => none

/-- The call `dateRaw.match(/(\d{4}-\d{2}-\d{2})/)`: the leftmost match, `none` for `null`. -/
def matchDate : List Char → Option (List Char)
  | [] => none
  | c :: cs =>
    match isoShapePrefix (c :: cs) with
    | some m => some m
    | none => matchDate cs

/-- The call `replace(/[^0-9.\-]/g, '')`. -/
def stripNonNumeric (cs : List Char) : List Char :=
  cs.filter (fun c => c.isDigit || c = '.' || c = '-')

/-- The loop of `parseCSV` over the data lines (app.js lines 251-261).  The result `none`
stands for the `TypeError` raised by `cols[i].match` or `cols[i].replace` when `cols[i]`
is `undefined`. -/
def parseRows (idxDate idxWeight idxCals : Nat) : List (List Char) → Option (List Entry)
  | [] => some []
  | line :: rest =>
    let cols := (splitOn ',' line).map trim
    if cols.length < 3 then parseRows idxDate idxWeight idxCals rest
    else
      match cols[idxDate]?, cols[idxWeight]?, cols[idxCals]? with
      | some dateRaw, some weightRaw, some calsRaw =>
        match matchDate dateRaw, parseFloatChars (stripNonNumeric weightRaw),
              parseFloatChars (stripNonNumeric calsRaw) with
        | some date, some weight, some calories =>
          (parseRows idxDate idxWeight idxCals rest).map
            (fun out => { date := String.mk date, weight := weight, calories := calories } :: out)
        | _, _, _ => parseRows idxDate idxWeight idxCals rest
      | _, _, _ => none

/-- The function `parseCSV` (app.js lines 241-263); `none` when it throws. -/
def parseCSV (text : String) : Option (List Entry) :=
  let lines := splitOn '\n' (trim (text.data.filter (fun c => c ≠ '\r')))
  match lines with
  | [] => some []
  | header :: rows =>
    let headers := (splitOn ',' header).map (fun h => toLowerCase (trim h))
    let idxDate := findIndex (fun h => h = "date".data) headers
    let idxWeight := findIndex (fun h => h = "weight_kg".data ∨ h = "weight".data) headers
    let idxCals := findIndex (fun h => h = "calories_kcal".data ∨ h = "calories".data) headers
    match idxDate, idxWeight, idxCals with
    | some iD, some iW, some iC => parseRows iD iW iC rows
    | _, _, _ => some []

/-! ## Number to string -/

/-- Number of decimal places of a fraction in lowest terms with denominator `den`: the
least `f` with `den ∣ 10 ^ f`, found by removing a factor 2, 5 or 10 of `den` at each step;
`none` when `den` has another prime factor. -/
def decimalPlaces : Nat → Nat → Option Nat
  | 0, _ => none
  | fuel + 1, den =>
    if den = 1 then some 0
    else if Nat.gcd den 10 = 1 then none
    else (decimalPlaces fuel (den / Nat.gcd den 10)).map (fun f => f + 1)

/-- Least `f` with `num * 10 ^ f / den ≥ 10 ^ 16`, searched upward from `f`. -/
def scaleTo17 (num den : Nat) : Nat → Nat → Nat
  | 0, f => f
  | fuel + 1, f => if 10 ^ 16 ≤ num * 10 ^ f / den then f else scaleTo17 num den fuel (f + 1)

/-- Decimal digits of a natural number, most significant first. -/
def digitsOf (n : Nat) : List Char := Nat.toDigits 10 n

/-- A digit string without its trailing zeros. -/
def dropTrailingZeros (ds : List Char) : List Char :=
  (ds.reverse.dropWhile (fun c => c = '0')).reverse

/-- Steps 6 to 10 of ECMAScript `Number::toString` (radix 10) for the positive number
`0.ds × 10 ^ n`, where `ds` is its digit string of least length. -/
def renderDecimal (ds : List Char) (n : Int) : List Char :=
  let k : Int := ds.length
  if k ≤ n ∧ n ≤ 21 then ds ++ List.replicate (n - k).toNat '0'
  else if 0 < n ∧ n ≤ 21 then ds.take n.toNat ++ '.' :: ds.drop n.toNat
  else if -6 < n ∧ n ≤ 0 then '0' :: '.' :: (List.replicate (-n).toNat '0' ++ ds)
  else
    let expo := (if 0 ≤ n - 1 then '+' else '-') :: digitsOf (n - 1).natAbs
    match ds with
    | [] => 'e' :: expo
    | [d] => d :: 'e' :: expo
    | d :: rest => d :: '.' :: (rest ++ 'e' :: expo)

/-- `Number::toString` of the positive number `num / den`.  Every Number has a finite
decimal expansion, printed here in full; a rational without one is no Number value and is
printed, for definiteness, from its rounding to seventeen or more significant digits. -/
def positiveToString (num den : Nat) : List Char :=
  match decimalPlaces den den with
  | some f =>
    let digits := digitsOf (num * 10 ^ f / den)
    renderDecimal (dropTrailingZeros digits) ((digits.length : Int) - f)
  | none =>
    let f := scaleTo17 num den (den + 17) 0
    let digits := digitsOf ((2 * num * 10 ^ f + den) / (2 * den))
    renderDecimal (dropTrailingZeros digits) ((digits.length : Int) - f)

/-- The conversion of a number to a string (`toString`, `join`, template literals). -/
def numberToString (q : ℚ) : String :=
  if q.num = 0 then "0"
  else if q.num < 0 then String.mk ('-' :: positiveToString q.num.natAbs q.den)
  else String.mk (positiveToString q.num.natAbs q.den)

/-- The method `join`. -/
def joinWith (sep : List Char) : List (List Char) → List Char
  | [] => []
  | [x] => x
  | x :: y :: rest => x ++ sep ++ joinWith sep (y :: rest)

/-- The text built by the `exportCSV` click handler (app.js lines 375-378). -/
def exportCSV (entries : List Entry) : String :=
  let rows := ["date".data, "weight_kg".data, "calories_kcal".data] ::
    (sortEntries entries).map (fun e =>
      [e.date.data, (numberToString e.weight).data, (numberToString e.calories).data])
  String.mk (joinWith ['\n'] (rows.map (joinWith [','])))

/-! ## The series on Numbers with overflow -/

/-- One row pushed by `computeSeries` (app.js line 55), its three numbers as Numbers. -/
structure NumberPoint where
  date : String
  tdee : JSNumber
  target : JSNumber
  avgIntake : JSNumber
  windowCount : Nat
  deriving DecidableEq

/-- The `avgIntake` of the loop body (app.js line 44) as a Number. -/
def avgIntakeNumber (w : List Entry) : JSNumber :=
  (w.foldl (fun (sum : JSNumber) e => sum.add (.fin e.calories)) (.fin 0)).div
    (.fin (if w.length = 0 then 1 else (w.length : ℚ)))

/-- The `tdee` of the loop body (app.js lines 45-53) as a Number; `days` is a quotient of
time values, which is exact and finite. -/
def tdeeOfNumber (tz : Zone) (w : List Entry) : JSNumber :=
  match w.head?, w.getLast? with
  | some first, some last =>
    if 2 ≤ w.length then
      let days := spanDays tz first last
      let deltaW := (JSNumber.fin last.weight).sub (.fin first.weight)
      let dWperDay := deltaW.div (.fin days)
      (avgIntakeNumber w).add (dWperDay.mul (.fin KCALS_PER_KG))
    else avgIntakeNumber w
  | _, _ => avgIntakeNumber w

/-- The `goalDeltaPerDay` of `computeSeries` and `updateSummary` (app.js lines 34 and 211)
as a Number. -/
def goalDeltaPerDayNumber (goalKgPerWeek : ℚ) : JSNumber :=
  ((JSNumber.fin goalKgPerWeek).div (.fin 7)).mul (.fin KCALS_PER_KG)

/-- One iteration of the loop of `computeSeries` (app.js lines 37-55) on Numbers. -/
def seriesPointNumber (tz : Zone) (sorted : List Entry) (goalDeltaPerDay : JSNumber)
    (windowDays : ℚ) (cur : Entry) : NumberPoint :=
  let w := window tz sorted windowDays cur
  { date := cur.date
    tdee := tdeeOfNumber tz w
    target := (avgIntakeNumber w).sub goalDeltaPerDay
    avgIntake := avgIntakeNumber w
    windowCount := w.length }

/-- The function `computeSeries` (app.js lines 30-58) on Numbers. -/
def computeSeriesNumber (tz : Zone) (entries : List Entry) (goalKgPerWeek windowDays : ℚ) :
    List NumberPoint :=
  if entries.length = 0 then []
  else
    let sorted := sortEntries entries
    let goalDeltaPerDay := goalDeltaPerDayNumber goalKgPerWeek
    sorted.map (seriesPointNumber tz sorted goalDeltaPerDay windowDays)

/-! ## Summary -/

/-- The function `Math.round` on a finite number: nearest integer, halves toward plus
infinity. -/
def mathRound (x : ℚ) : Int := ⌊x + 1 / 2⌋

/-- The function `Math.round` on a Number. -/
def JSNumber.round : JSNumber → JSNumber
  | .fin q => .fin (mathRound q : ℚ)
  | .posInf => .posInf
  | .negInf => .negInf
  | .nan => .nan

/-- The method `toString` of a Number. -/
def JSNumber.toString : JSNumber → String
  | .fin q => numberToString q
  | .posInf => "Infinity"
  | .negInf => "-Infinity"
  | .nan => "NaN"

/-- The comparison `x > 0` of a Number with zero. -/
def JSNumber.isPositive : JSNumber → Bool
  | .fin q => decide (0 < q)
  | .posInf => true
  | _ => false

/-- Text contents written by `updateSummary` into the elements `currentTDEE`, `tdeeNote`,
`needToEat` and `calChange`. -/
structure SummaryView where
  currentTDEE : String
  tdeeNote : String
  needToEat : String
  calChange : String
  deriving DecidableEq

/-- The function `updateSummary` (app.js lines 187-237) on a page that has the four
elements; the style classes of `calChange` are left out.  The result `none` stands for a
`TypeError` on an `undefined` last element. -/
def updateSummary (tz : Zone) (entries : List Entry) (settings : Settings) :
    Option SummaryView :=
  if entries.length = 0 then
    some { currentTDEE := "—", tdeeNote := "Add entries to compute TDEE",
           needToEat := "—", calChange := "—" }
  else
    let series := computeSeriesNumber tz entries settings.goalKgPerWeek settings.windowDays
    if series.length = 0 then
      some { currentTDEE := "—", tdeeNote := "Not enough data",
             needToEat := "—", calChange := "—" }
    else
      match series[series.length - 1]?, (sortEntries entries)[entries.length - 1]? with
      | some last, some lastEntry =>
        let curTDEE := last.tdee
        let goalDeltaPerDay := goalDeltaPerDayNumber settings.goalKgPerWeek
        let needToEat := curTDEE.add goalDeltaPerDay
        let delta := needToEat.sub (.fin lastEntry.calories)
        let tdeeVal := curTDEE.round
        let n := needToEat.round
        some { currentTDEE := if tdeeVal.isFinite then tdeeVal.toString else "—"
               tdeeNote := "Based on last " ++ numberToString settings.windowDays ++ " days"
               needToEat := if n.isFinite then n.toString else "—"
               calChange :=
                 if !delta.isFinite then "—"
                 else
                   let d := delta.round
                   (if d.isPositive then "+" else "") ++ d.toString }
      | _, _ => none

/-! ## The store and its three write paths -/

/-- A primitive JavaScript value, as a property of an object read by `JSON.parse`
(properties holding arrays or objects are outside the model). -/
inductive JSPrim where
  | undefined
  | null
  | bool (b : Bool)
  | num (q : ℚ)
  | str (s : String)
  deriving DecidableEq

/-- A value of the property `weight` or `calories` of a stored object: a primitive value, or
one of the Numbers that are not finite (`parseFloat` returns each of the three, and
`JSON.parse` reads a numeral beyond the range as ±Infinity).  The constructor `num` holds a
finite number. -/
inductive JSValue where
  | undefined
  | null
  | bool (b : Bool)
  | num (q : ℚ)
  | str (s : String)
  | posInf
  | negInf
  | nan
  deriving DecidableEq

/-- A Number as a value. -/
def JSNumber.toValue : JSNumber → JSValue
  | .fin q => .num q
  | .posInf => .posInf
  | .negInf => .negInf
  | .nan => .nan

/-- An element of the global `entries` array: the three properties the program reads.
The array is filled by the entry form and by both imports, and the JSON path stores the
object it read as it is, whatever the types of its properties.  The weight and the calories
can be any value, the Numbers that are not finite included.  The date is a string on the
form and CSV paths and a value read by `JSON.parse` on the JSON path: it is never NaN, so
that `===` on dates is equality (a date that is a numeral beyond the range of finite Numbers
is outside the model). -/
structure RawEntry where
  date : JSPrim
  weight : JSValue
  calories : JSValue
  deriving DecidableEq

/-- The object literal `{date, weight, calories}` of the entry form and of `parseCSV`. -/
def Entry.toRaw (e : Entry) : RawEntry :=
  { date := .str e.date, weight := .num e.weight, calories := .num e.calories }

/-- Truthiness (`ToBoolean`) of a primitive value. -/
def truthy : JSPrim → Bool
  | .undefined => false
  | .null => false
  | .bool b => b
  | .num q => decide (q ≠ 0)
  | .str s => decide (s ≠ "")

/-- The global `isFinite` on a value, which first converts its argument to a number;
`strToNumber` is the conversion of a string (`none` for NaN and ±Infinity). -/
def isFiniteJS (strToNumber : String → Option ℚ) : JSValue → Bool
  | .undefined => false
  | .null => true
  | .bool _ => true
  | .num _ => true
  | .str s => (strToNumber s).isSome
  | .posInf => false
  | .negInf => false
  | .nan => false

/-- The date-keyed insert-or-replace shared by the three write paths (app.js lines
330-332, 405-406 and 431-432): `findIndex` on `x.date === date`, then assignment at the
index found, or `push`. -/
def upsert (entries : List RawEntry) (obj : RawEntry) : List RawEntry :=
  match findIndex (fun x => decide (x.date = obj.date)) entries with
  | some existing => entries.set existing obj
  | none => entries ++ [obj]

/-- The `entryForm` submit handler (app.js lines 323-337) on the values of the three
inputs: the new content of `entries`.  The guard of line 327 is the only thing between the
result of `parseFloat` and the store. -/
def submitEntry (entries : List RawEntry) (date weight calories : String) : List RawEntry :=
  let w := parseFloatNumber weight.data
  let c := parseFloatNumber calories.data
  if date = "" ∨ w.isFinite = false ∨ c.isFinite = false then entries
  else upsert entries { date := .str date, weight := w.toValue, calories := c.toValue }

/-- The loop of the CSV import handler (app.js lines 430-433). -/
def upsertAll (entries : List RawEntry) (rows : List Entry) : List RawEntry :=
  rows.foldl (fun acc it => upsert acc it.toRaw) entries

/-- The `importCSV` change handler (app.js lines 424-437) on the text of the file: the new
content of `entries`; `none` when `parseCSV` throws. -/
def importCSV (entries : List RawEntry) (text : String) : Option (List RawEntry) :=
  match parseCSV text with
  | some rows => if rows.length = 0 then some entries else some (upsertAll entries rows)
  | none => none

/-- The loop over `obj.entries` of the JSON import handler (app.js lines 403-407).  An item
that is not an object (`none`) has no `date` and is skipped. -/
def importJSONEntries (strToNumber : String → Option ℚ) (entries : List RawEntry)
    (items : List (Option RawEntry)) : List RawEntry :=
  items.foldl (fun acc item =>
    match item with
    | some it =>
      if !truthy it.date || !isFiniteJS strToNumber it.weight
          || !isFiniteJS strToNumber it.calories then acc
      else upsert acc it
    | none => acc) entries

/-! ## The settings and the operations that change them -/

/-- The global `settings` object as the program can hold it: `Object.assign` copies the
properties of a JSON object into it whatever their types. -/
structure RawSettings where
  goalKgPerWeek : JSPrim
  windowDays : JSPrim
  deriving DecidableEq

/-- Settings whose two properties are numbers. -/
def Settings.toRaw (s : Settings) : RawSettings :=
  { goalKgPerWeek := .num s.goalKgPerWeek, windowDays := .num s.windowDays }

/-- The defaults `{ goalKgPerWeek: -0.5, windowDays: 7 }` (app.js lines 8 and 355). -/
def defaultSettings : RawSettings :=
  { goalKgPerWeek := .num (-1 / 2), windowDays := .num 7 }

/-- The global `parseInt` with radix 10, on the characters of its argument: leading white
space is skipped, then an optional sign and the longest run of decimal digits are read;
what follows the digits is ignored.  The result `none` stands for NaN (no digit). -/
def parseIntChars (s : List Char) : Option Int :=
  match s.dropWhile isJSWhitespace with
  | sg :: rest =>
    if sg = '-' then
      (if (rest.takeWhile Char.isDigit).isEmpty then none
       else some (-(digitsValue (rest.takeWhile Char.isDigit) : Int)))
    else if sg = '+' then
      (if (rest.takeWhile Char.isDigit).isEmpty then none
       else some (digitsValue (rest.takeWhile Char.isDigit) : Int))
    else
      (if ((sg :: rest).takeWhile Char.isDigit).isEmpty then none
       else some (digitsValue ((sg :: rest).takeWhile Char.isDigit) : Int))
  | [] => none

/-- The global `parseInt` with radix 10. -/
def parseInt (s : String) : Option Int := parseIntChars s.data

/-- The `saveSettings` click handler (app.js lines 339-347) on the values of the inputs
`goal` and `windowDays`: the new content of `settings`.  `Number.isInteger` holds of every
result of `parseInt` other than NaN. -/
def saveSettingsClick (settings : RawSettings) (goalText windowText : String) : RawSettings :=
  match parseFloat goalText, parseInt windowText with
  | some goal, some windowDays =>
    if windowDays < 1 then settings
    else { goalKgPerWeek := .num goal, windowDays := .num (windowDays : ℚ) }
  | _, _ => settings

/-- The `clearAllData` click handler (app.js lines 350-359): the new contents of `entries`
and `settings`, given the answer to the `confirm` dialog. -/
def clearAllData (confirmed : Bool) (entries : List RawEntry) (settings : RawSettings) :
    List RawEntry × RawSettings :=
  if confirmed then ([], defaultSettings) else (entries, settings)

/-- The properties `goalKgPerWeek` and `windowDays` of the `settings` object of an imported
JSON file, `none` for a property that the object does not have. -/
structure SettingsPatch where
  goalKgPerWeek : Option JSPrim
  windowDays : Option JSPrim
  deriving DecidableEq

/-- The settings branch of the JSON import handler (app.js lines 410-415):
`Object.assign(settings, obj.settings)`.  The argument `none` stands for an `obj.settings`
that is absent or falsy. -/
def importJSONSettings (settings : RawSettings) (patch : Option SettingsPatch) : RawSettings :=
  match patch with
  | some p =>
    { goalKgPerWeek := p.goalKgPerWeek.getD settings.goalKgPerWeek
      windowDays := p.windowDays.getD settings.windowDays }
  | none => settings

/-! ## The specification's wording, for comparison -/

/-- The window as the specification words it: the entries dated at most `windowSize`
calendar days before `cur` and not after it, both ends included. -/
def calendarWindow (entries : List Entry) (windowSize : Int) (cur : Entry) : List Entry :=
  entries.filter (fun e =>
    match dayNumber e.date, dayNumber cur.date with
    | some de, some dc => decide (dc - windowSize ≤ de ∧ de ≤ dc)
    | _, _ => false)

/-- The collection deduplicated by date (the last entry of each date is kept). -/
def dedupByDate : List Entry → List Entry
  | [] => []
  | e :: es =>
    if es.any (fun x => decide (x.date = e.date)) then dedupByDate es
    else e :: dedupByDate es

/-- What one data line contributes, in the words of the claim: an entry when its date field
holds a `YYYY-MM-DD`-shaped substring and its weight and calories fields parse to finite
numbers, nothing otherwise. -/
def rowEntry (idxDate idxWeight idxCals : Nat) (line : List Char) : Option Entry :=
  let cols := (splitOn ',' line).map trim
  match cols[idxDate]?, cols[idxWeight]?, cols[idxCals]? with
  | some dateRaw, some weightRaw, some calsRaw =>
    match matchDate dateRaw, parseFloatChars (stripNonNumeric weightRaw),
          parseFloatChars (stripNonNumeric calsRaw) with
    | some date, some weight, some calories =>
      some { date := String.mk date, weight := weight, calories := calories }
    | _, _, _ => none
  | _, _, _ => none

/-- A data line on which the loop of `parseCSV` does not throw: it has fewer than three
columns, or it has a column at each of the three indices. -/
def rowReadable (idxDate idxWeight idxCals : Nat) (line : List Char) : Prop :=
  ((splitOn ',' line).map trim).length < 3 ∨
    (idxDate < ((splitOn ',' line).map trim).length ∧
     idxWeight < ((splitOn ',' line).map trim).length ∧
     idxCals < ((splitOn ',' line).map trim).length)

/-- A string of the shape `YYYY-MM-DD`: four digits, a hyphen, two digits, a hyphen, two
digits (whether or not they name a day of the calendar). -/
def isoShaped (s : String) : Prop := isoShapePrefix s.data = some s.data

/-- A finite number, as a value: a number whose magnitude is below `overflowBound`. -/
def JSValue.isFiniteNumber (v : JSValue) : Prop :=
  ∃ q : ℚ, v = .num q ∧ |q| < (overflowBound : ℚ)

/-- A stored object whose date is a non-empty string and whose weight and calories are
finite numbers. -/
def RawEntry.wellFormed (r : RawEntry) : Prop :=
  (∃ d : String, r.date = .str d ∧ d ≠ "") ∧ r.weight.isFiniteNumber ∧
    r.calories.isFiniteNumber

/-- A window size that is a positive integer. -/
def isPositiveInteger (v : JSPrim) : Prop := ∃ n : Int, 1 ≤ n ∧ v = .num (n : ℚ)

/-- Arithmetic mean of the calories of a list of entries. -/
def meanCalories (l : List Entry) : ℚ :=
  (l.map Entry.calories).sum / (l.length : ℚ)

set_option linter.unusedVariables false
set_option linter.unusedTactic false
set_option linter.unreachableTactic false

/-! ## Evaluation lemmas -/

theorem newDate_intCast (n : Int) : newDate (n : ℚ) = timeClip n := by
  have h : |(n : ℚ)| ≤ 8640000000000000 ↔ n.natAbs ≤ 8640000000000000 := by
    rw [← Int.cast_abs, Int.abs_eq_natAbs]
    constructor
    · intro h
      have h1 : ((n.natAbs : Int) : ℚ) ≤ ((8640000000000000 : Int) : ℚ) := by
        simpa using h
      have h2 := Int.cast_le.mp h1
      omega
    · intro h
      have h1 : (n.natAbs : Int) ≤ (8640000000000000 : Int) := by omega
      have h2 : ((n.natAbs : Int) : ℚ) ≤ ((8640000000000000 : Int) : ℚ) := Int.cast_le.mpr h1
      simpa using h2
  unfold newDate timeClip
  by_cases hn : n.natAbs ≤ 8640000000000000
  · rw [if_pos (h.mpr hn), if_pos hn]
    simp [Int.tdiv_one]
  · rw [if_neg (fun hq => hn (h.mp hq)), if_neg hn]

theorem newDate_sub_days (t w : Int) :
    newDate ((t : ℚ) - (w : ℚ) * 86400000) = timeClip (t - w * 86400000) := by
  have h : ((t : ℚ) - (w : ℚ) * 86400000) = ((t - w * 86400000 : Int) : ℚ) := by
    push_cast; ring
  rw [h, newDate_intCast]

theorem parseFloatNumber_of_decimal (s : List Char) (d : Decimal)
    (h : parseDecimal s = some d) (hr : d.inRange = true) :
    parseFloatNumber s = .fin d.toRat := by
  simp [parseFloatNumber, h, hr]

theorem parseFloatChars_of_decimal (s : List Char) (d : Decimal)
    (h : parseDecimal s = some d) (hr : d.inRange = true) :
    parseFloatChars s = some d.toRat := by
  simp [parseFloatChars, parseFloatNumber_of_decimal s d h hr]

/-! ## Order of date strings and days of the calendar -/

theorem dateOrd_iff (a b : Entry) : dateOrd a b ↔ a.date.data ≤ b.date.data := by
  unfold dateOrd localeCompare
  split_ifs with h1 h2
  · simp [le_of_lt h1]
  · simp [not_le.mpr h2]
  · simp [not_lt.mp h2]

theorem dateOrd_total : IsTotal Entry dateOrd :=
  ⟨fun a b => by simp only [dateOrd_iff]; exact le_total _ _⟩

theorem dateOrd_trans : IsTrans Entry dateOrd :=
  ⟨fun a b c => by simp only [dateOrd_iff]; exact le_trans⟩

theorem lex_cons_cons (a b : Char) (l l' : List Char) :
    (a :: l) < (b :: l') ↔ a < b ∨ (a = b ∧ l < l') := by
  constructor
  · intro h
    cases h with
    | cons h => exact Or.inr ⟨rfl, h⟩
    | rel h => exact Or.inl h
  · rintro (h | ⟨rfl, h⟩)
    · exact List.Lex.rel h
    · exact List.Lex.cons h

theorem digitVal_some {c : Char} {n : Nat} (h : digitVal c = some n) :
    c.toNat = n + 48 ∧ n ≤ 9 := by
  unfold digitVal at h
  split at h
  · rename_i hd
    simp only [Option.some.injEq] at h
    simp only [Char.isDigit, Bool.and_eq_true, decide_eq_true_eq] at hd
    obtain ⟨h1, h2⟩ := hd
    have h1' : 48 ≤ c.toNat := h1
    have h2' : c.toNat ≤ 57 := h2
    omega
  · simp at h

theorem char_lt_iff (a b : Char) : a < b ↔ a.toNat < b.toNat := Iff.rfl

theorem char_eq_iff (a b : Char) : a = b ↔ a.toNat = b.toNat := by
  constructor
  · rintro rfl; rfl
  · intro h
    apply Char.ext
    exact UInt32.ext (by simpa [Char.toNat] using h)

theorem parseYMD_some {s : String} {y m d : Nat} (h : parseYMD s = some (y, m, d)) :
    ∃ c1 c2 c3 c4 c5 c6 c7 c8 : Char, ∃ n1 n2 n3 n4 n5 n6 n7 n8 : Nat,
      s.data = [c1, c2, c3, c4, '-', c5, c6, '-', c7, c8] ∧
      digitVal c1 = some n1 ∧ digitVal c2 = some n2 ∧ digitVal c3 = some n3 ∧
      digitVal c4 = some n4 ∧ digitVal c5 = some n5 ∧ digitVal c6 = some n6 ∧
      digitVal c7 = some n7 ∧ digitVal c8 = some n8 ∧
      y = 1000 * n1 + 100 * n2 + 10 * n3 + n4 ∧ m = 10 * n5 + n6 ∧ d = 10 * n7 + n8 := by
  unfold parseYMD at h
  split at h
  · rename_i y1 y2 y3 y4 h1 m1 m2 h2 d1 d2 hdata
    split at h
    · rename_i hh
      obtain ⟨rfl, rfl⟩ := hh
      split at h
      · rename_i a b c d' e f g h' ha hb hc hd he hf hg hh'
        simp only [Option.some.injEq, Prod.mk.injEq] at h
        obtain ⟨rfl, rfl, rfl⟩ := h
        exact ⟨y1, y2, y3, y4, m1, m2, d1, d2, a, b, c, d', e, f, g, h', hdata, ha, hb, hc, hd,
          he, hf, hg, hh', rfl, rfl, rfl⟩
      · simp at h
    · simp at h
  · simp at h

theorem digit_cons_lt {c e : Char} {n k : Nat} (hc : digitVal c = some n)
    (he : digitVal e = some k) {l l' : List Char} {p q : Nat} (B : Nat)
    (hl : l < l' ↔ p < q) (hp : p < B) (hq : q < B) :
    (c :: l) < (e :: l') ↔ B * n + p < B * k + q := by
  have h1 := digitVal_some hc
  have h2 := digitVal_some he
  rw [lex_cons_cons, char_lt_iff, char_eq_iff, hl]
  constructor
  · rintro (h | ⟨h, h'⟩)
    · have hnk : n + 1 ≤ k := by omega
      have := Nat.mul_le_mul_left B hnk
      rw [Nat.mul_add] at this
      omega
    · have hnk : n = k := by omega
      subst hnk; omega
  · intro h
    rcases Nat.lt_trichotomy n k with hlt | heq | hgt
    · left; omega
    · subst heq; right; exact ⟨by omega, by omega⟩
    · exfalso
      have hnk : k + 1 ≤ n := hgt
      have := Nat.mul_le_mul_left B hnk
      rw [Nat.mul_add] at this
      omega

theorem hyphen_cons_lt {l l' : List Char} {p q : Nat} (hl : l < l' ↔ p < q) :
    ('-' :: l) < ('-' :: l') ↔ p < q := by
  rw [lex_cons_cons, hl]
  simp

theorem data_lt_iff_of_parse {a b : String} {y m d y' m' d' : Nat}
    (ha : parseYMD a = some (y, m, d)) (hb : parseYMD b = some (y', m', d')) :
    a.data < b.data ↔ (y < y' ∨ (y = y' ∧ (m < m' ∨ (m = m' ∧ d < d')))) := by
  obtain ⟨c1, c2, c3, c4, c5, c6, c7, c8, n1, n2, n3, n4, n5, n6, n7, n8, hda, h1, h2, h3, h4,
    h5, h6, h7, h8, rfl, rfl, rfl⟩ := parseYMD_some ha
  obtain ⟨e1, e2, e3, e4, e5, e6, e7, e8, k1, k2, k3, k4, k5, k6, k7, k8, hdb, g1, g2, g3, g4,
    g5, g6, g7, g8, rfl, rfl, rfl⟩ := parseYMD_some hb
  have b1 := digitVal_some h1; have b2 := digitVal_some h2; have b3 := digitVal_some h3
  have b4 := digitVal_some h4; have b5 := digitVal_some h5; have b6 := digitVal_some h6
  have b7 := digitVal_some h7; have b8 := digitVal_some h8
  have a1 := digitVal_some g1; have a2 := digitVal_some g2; have a3 := digitVal_some g3
  have a4 := digitVal_some g4; have a5 := digitVal_some g5; have a6 := digitVal_some g6
  have a7 := digitVal_some g7; have a8 := digitVal_some g8
  have s0 : ([] : List Char) < [] ↔ (0 : Nat) < 0 := by decide
  have s8 := digit_cons_lt h8 g8 1 s0 (by omega) (by omega)
  have s7 := digit_cons_lt h7 g7 10 s8 (by omega) (by omega)
  have s7' := hyphen_cons_lt s7
  have s6 := digit_cons_lt h6 g6 100 s7' (by omega) (by omega)
  have s5 := digit_cons_lt h5 g5 1000 s6 (by omega) (by omega)
  have s5' := hyphen_cons_lt s5
  have s4 := digit_cons_lt h4 g4 10000 s5' (by omega) (by omega)
  have s3 := digit_cons_lt h3 g3 100000 s4 (by omega) (by omega)
  have s2 := digit_cons_lt h2 g2 1000000 s3 (by omega) (by omega)
  have s1 := digit_cons_lt h1 g1 10000000 s2 (by omega) (by omega)
  rw [hda, hdb, s1]
  omega

theorem isLeapYear_iff (y : Nat) :
    isLeapYear y = true ↔ (y % 4 = 0 ∧ y % 100 ≠ 0) ∨ y % 400 = 0 := by
  simp [isLeapYear]

theorem month_table (y m : Nat) (hm1 : 1 ≤ m) (hm2 : m ≤ 12) :
    ∃ L : Nat, L = (if isLeapYear y then 1 else 0) ∧ L ≤ 1 ∧
      ((m = 1 ∧ daysBeforeMonth y m = 0 ∧ daysInMonth y m = 31) ∨
       (m = 2 ∧ daysBeforeMonth y m = 31 ∧ daysInMonth y m = 28 + L) ∨
       (m = 3 ∧ daysBeforeMonth y m = 59 + L ∧ daysInMonth y m = 31) ∨
       (m = 4 ∧ daysBeforeMonth y m = 90 + L ∧ daysInMonth y m = 30) ∨
       (m = 5 ∧ daysBeforeMonth y m = 120 + L ∧ daysInMonth y m = 31) ∨
       (m = 6 ∧ daysBeforeMonth y m = 151 + L ∧ daysInMonth y m = 30) ∨
       (m = 7 ∧ daysBeforeMonth y m = 181 + L ∧ daysInMonth y m = 31) ∨
       (m = 8 ∧ daysBeforeMonth y m = 212 + L ∧ daysInMonth y m = 31) ∨
       (m = 9 ∧ daysBeforeMonth y m = 243 + L ∧ daysInMonth y m = 30) ∨
       (m = 10 ∧ daysBeforeMonth y m = 273 + L ∧ daysInMonth y m = 31) ∨
       (m = 11 ∧ daysBeforeMonth y m = 304 + L ∧ daysInMonth y m = 30) ∨
       (m = 12 ∧ daysBeforeMonth y m = 334 + L ∧ daysInMonth y m = 31)) := by
  refine ⟨_, rfl, by split <;> omega, ?_⟩
  have hcases : m = 1 ∨ m = 2 ∨ m = 3 ∨ m = 4 ∨ m = 5 ∨ m = 6 ∨ m = 7 ∨ m = 8 ∨ m = 9 ∨
      m = 10 ∨ m = 11 ∨ m = 12 := by omega
  rcases hcases with h | h | h | h | h | h | h | h | h | h | h | h <;> subst h <;>
    cases hl : isLeapYear y <;> simp [daysBeforeMonth, daysInMonth, hl]

theorem dayOfYear_bounds {y m d : Nat} (hm1 : 1 ≤ m) (hm2 : m ≤ 12) (hd1 : 1 ≤ d)
    (hd2 : d ≤ daysInMonth y m) :
    daysBeforeMonth y m + (d - 1) < 365 + (if isLeapYear y then 1 else 0) := by
  obtain ⟨L, hL, hL1, h⟩ := month_table y m hm1 hm2
  rw [← hL]
  omega

theorem daysBeforeMonth_succ (y m : Nat) (hm1 : 1 ≤ m) (hm2 : m ≤ 11) :
    daysBeforeMonth y (m + 1) = daysBeforeMonth y m + daysInMonth y m := by
  have hcases : m = 1 ∨ m = 2 ∨ m = 3 ∨ m = 4 ∨ m = 5 ∨ m = 6 ∨ m = 7 ∨ m = 8 ∨ m = 9 ∨
      m = 10 ∨ m = 11 := by omega
  rcases hcases with h | h | h | h | h | h | h | h | h | h | h <;> subst h <;>
    cases hl : isLeapYear y <;> simp [daysBeforeMonth, daysInMonth, hl]

theorem daysBeforeMonth_lt {y m m' : Nat} (hm1 : 1 ≤ m) (h : m < m') (hm2' : m' ≤ 12) :
    daysBeforeMonth y m + daysInMonth y m ≤ daysBeforeMonth y m' := by
  induction m' with
  | zero => omega
  | succ k ih =>
    rcases Nat.lt_succ_iff_lt_or_eq.mp h with hlt | heq
    · have := ih hlt (by omega)
      rw [daysBeforeMonth_succ y k (by omega) (by omega)]
      omega
    · subst heq
      rw [daysBeforeMonth_succ y m hm1 (by omega)]

theorem dayOfYear_lt_iff {y m d m' d' : Nat} (hm1 : 1 ≤ m) (hm2 : m ≤ 12) (hd1 : 1 ≤ d)
    (hd2 : d ≤ daysInMonth y m) (hm1' : 1 ≤ m') (hm2' : m' ≤ 12) (hd1' : 1 ≤ d')
    (hd2' : d' ≤ daysInMonth y m') :
    daysBeforeMonth y m + (d - 1) < daysBeforeMonth y m' + (d' - 1)
      ↔ (m < m' ∨ (m = m' ∧ d < d')) := by
  rcases Nat.lt_trichotomy m m' with hlt | heq | hgt
  · have := daysBeforeMonth_lt (y := y) hm1 hlt hm2'
    constructor
    · intro _; exact Or.inl hlt
    · intro _; omega
  · subst heq
    constructor
    · intro h; right; exact ⟨rfl, by omega⟩
    · rintro (h | ⟨_, h⟩) <;> omega
  · have := daysBeforeMonth_lt (y := y) hm1' hgt hm2
    constructor
    · intro h; omega
    · rintro (h | ⟨h, _⟩) <;> omega

theorem daysBeforeYear_succ (y : Nat) :
    daysBeforeYear (y + 1) = daysBeforeYear y + 365 + (if isLeapYear y then 1 else 0) := by
  unfold daysBeforeYear
  have h4 : (y + 1 + 3) / 4 = (y + 3) / 4 + (if y % 4 = 0 then 1 else 0) := by
    split <;> omega
  have h100 : (y + 1 + 99) / 100 = (y + 99) / 100 + (if y % 100 = 0 then 1 else 0) := by
    split <;> omega
  have h400 : (y + 1 + 399) / 400 = (y + 399) / 400 + (if y % 400 = 0 then 1 else 0) := by
    split <;> omega
  have hb : (y + 99) / 100 ≤ y := by omega
  have i1 : y % 400 = 0 → y % 100 = 0 := by omega
  have i2 : y % 100 = 0 → y % 4 = 0 := by omega
  rw [h4, h100, h400]
  generalize (y + 3) / 4 = A at *
  generalize (y + 99) / 100 = B at *
  generalize (y + 399) / 400 = C at *
  cases hl : isLeapYear y
  · have := (isLeapYear_iff y).not.mp (by simp [hl])
    simp only [Bool.false_eq_true, ↓reduceIte]
    by_cases c4 : y % 4 = 0 <;> by_cases c100 : y % 100 = 0 <;> by_cases c400 : y % 400 = 0 <;>
      simp only [c4, c100, c400, ↓reduceIte] <;> omega
  · have := (isLeapYear_iff y).mp hl
    simp only [↓reduceIte]
    by_cases c4 : y % 4 = 0 <;> by_cases c100 : y % 100 = 0 <;> by_cases c400 : y % 400 = 0 <;>
      simp only [c4, c100, c400, ↓reduceIte] <;> omega

theorem daysBeforeYear_lt {y y' : Nat} (h : y < y') :
    daysBeforeYear y + 365 + (if isLeapYear y then 1 else 0) ≤ daysBeforeYear y' := by
  induction y' with
  | zero => omega
  | succ k ih =>
    rcases Nat.lt_succ_iff_lt_or_eq.mp h with hlt | heq
    · have := ih hlt
      rw [daysBeforeYear_succ k]
      omega
    · subst heq
      rw [daysBeforeYear_succ y]

theorem dayFromCivil_lt_iff {y m d y' m' d' : Nat} (hm1 : 1 ≤ m) (hm2 : m ≤ 12)
    (hd1 : 1 ≤ d) (hd2 : d ≤ daysInMonth y m) (hm1' : 1 ≤ m') (hm2' : m' ≤ 12)
    (hd1' : 1 ≤ d') (hd2' : d' ≤ daysInMonth y' m') :
    dayFromCivil y m d < dayFromCivil y' m' d'
      ↔ (y < y' ∨ (y = y' ∧ (m < m' ∨ (m = m' ∧ d < d')))) := by
  have b := dayOfYear_bounds hm1 hm2 hd1 hd2
  have b' := dayOfYear_bounds hm1' hm2' hd1' hd2'
  unfold dayFromCivil
  rcases Nat.lt_trichotomy y y' with hlt | heq | hgt
  · have := daysBeforeYear_lt hlt
    constructor
    · intro _; exact Or.inl hlt
    · intro _; omega
  · subst heq
    have := dayOfYear_lt_iff hm1 hm2 hd1 hd2 hm1' hm2' hd1' hd2'
    constructor
    · intro h; right; exact ⟨rfl, this.mp (by omega)⟩
    · rintro (h | ⟨_, h⟩)
      · omega
      · have := this.mpr h; omega
  · have := daysBeforeYear_lt hgt
    constructor
    · intro h; omega
    · rintro (h | ⟨h, _⟩) <;> omega

/-! ## The trailing window (C1) -/

/-- C1, at two failing inputs.  On a host in US Eastern time, with entries dated
2024-10-28 and 2024-11-04 and a window of 7 days, the point of 2024-11-04 has `windowCount`
1 and `avgIntake` 2100, the calories of that entry alone, although the entry of 2024-10-28
is dated exactly 7 calendar days earlier: the window of the claim holds both entries and
has mean intake 2050.  On any host (here UTC), with a window of 200000000 days the window
start is an Invalid Date and the point of the only entry has `windowCount` 0 and
`avgIntake` 0, where the window of the claim holds that entry. -/
theorem c1_window_drops_entries :
    computeSeries zoneEastern
        [⟨"2024-10-28", 80, 2000⟩, ⟨"2024-11-04", 79, 2100⟩] (-1 / 2) 7
      = [⟨"2024-10-28", 2000, 2550, 2000, 1⟩, ⟨"2024-11-04", 2100, 2650, 2100, 1⟩]
    ∧ dayNumber "2024-10-28" = some 20024 ∧ dayNumber "2024-11-04" = some 20031
    ∧ calendarWindow [⟨"2024-10-28", 80, 2000⟩, ⟨"2024-11-04", 79, 2100⟩] 7
        ⟨"2024-11-04", 79, 2100⟩
      = [⟨"2024-10-28", 80, 2000⟩, ⟨"2024-11-04", 79, 2100⟩]
    ∧ meanCalories [⟨"2024-10-28", 80, 2000⟩, ⟨"2024-11-04", 79, 2100⟩] = 2050
    ∧ computeSeries zoneUTC [⟨"2024-01-01", 80, 2000⟩] (-1 / 2) 200000000
      = [⟨"2024-01-01", 0, 550, 0, 0⟩]
    ∧ calendarWindow [⟨"2024-01-01", 80, 2000⟩] 200000000 ⟨"2024-01-01", 80, 2000⟩
      = [⟨"2024-01-01", 80, 2000⟩] := by
  have h1 : fmtDate zoneEastern "2024-10-28" = some 1730088000000 := by decide
  have h2 : fmtDate zoneEastern "2024-11-04" = some 1730696400000 := by decide
  have h3 : fmtDate zoneUTC "2024-01-01" = some 1704067200000 := by decide
  have d1 : dayNumber "2024-10-28" = some 20024 := by decide
  have d2 : dayNumber "2024-11-04" = some 20031 := by decide
  have d3 : dayNumber "2024-01-01" = some 19723 := by decide
  have hs : "2024-10-28".data < "2024-11-04".data := by decide
  have e1 := newDate_sub_days 1730088000000 7
  have e2 := newDate_sub_days 1730696400000 7
  have e3 := newDate_sub_days 1704067200000 200000000
  simp only [Int.cast_ofNat] at e1 e2 e3
  refine ⟨?_, d1, d2, ?_, ?_, ?_, ?_⟩
  · simp [computeSeries, sortEntries, List.insertionSort, List.orderedInsert, dateOrd,
      localeCompare, seriesPoint, window, tdeeOf, avgIntake, h1, h2, hs, dateGe, dateLe,
      e1, e2, timeClip, List.filter, KCALS_PER_KG]
    norm_num
  · simp [calendarWindow, d1, d2, List.filter]
  · norm_num [meanCalories]
  · simp [computeSeries, sortEntries, List.insertionSort, List.orderedInsert,
      seriesPoint, window, tdeeOf, avgIntake, h3, dateGe, dateLe,
      e3, timeClip, List.filter, KCALS_PER_KG]
    norm_num
  · simp [calendarWindow, d3, List.filter]

/-! ## The energy-balance estimate (C2) -/

/-- The worked example of the specification: entries (2024-01-01, 80, 2000) and
(2024-01-08, 79, 2000), window 7, on a host in US Eastern time (no offset change in that
week): the second point has both entries in its window and `tdee` 900. -/
theorem computeSeries_worked_example :
    computeSeries zoneEastern
        [⟨"2024-01-01", 80, 2000⟩, ⟨"2024-01-08", 79, 2000⟩] (-1 / 2) 7
      = [⟨"2024-01-01", 2000, 2550, 2000, 1⟩, ⟨"2024-01-08", 900, 2550, 2000, 2⟩] := by
  have h1 : fmtDate zoneEastern "2024-01-01" = some 1704081600000 := by decide
  have h2 : fmtDate zoneEastern "2024-01-08" = some 1704686400000 := by decide
  have hs : "2024-01-01".data < "2024-01-08".data := by decide
  have e1 := newDate_sub_days 1704081600000 7
  have e2 := newDate_sub_days 1704686400000 7
  simp only [Int.cast_ofNat] at e1 e2
  simp [computeSeries, sortEntries, List.insertionSort, List.orderedInsert, dateOrd,
    localeCompare, seriesPoint, window, tdeeOf, avgIntake, spanDays, h1, h2, hs, dateGe,
    dateLe, e1, e2, timeClip, List.filter, KCALS_PER_KG]
  norm_num

/-- C2, at the failing input: on a host in US Eastern time, with entries
(2024-11-02, 80, 2000) and (2024-11-04, 79, 2000) and a window of 7 days, the window of the
second point holds both entries, dated 2 calendar days apart, and its `tdee` is
`-12400 / 7` (the span is taken as 49 hours, `49 / 24` days), not the
`2000 + ((79 - 80) / max 1 2) * 7700 = -1850` of the claim. -/
theorem c2_span_not_whole_days_across_dst :
    computeSeries zoneEastern
        [⟨"2024-11-02", 80, 2000⟩, ⟨"2024-11-04", 79, 2000⟩] (-1 / 2) 7
      = [⟨"2024-11-02", 2000, 2550, 2000, 1⟩, ⟨"2024-11-04", -12400 / 7, 2550, 2000, 2⟩]
    ∧ dayNumber "2024-11-02" = some 20029 ∧ dayNumber "2024-11-04" = some 20031
    ∧ (2000 : ℚ) + ((79 - 80) / max 1 ((20031 - 20029 : Int) : ℚ)) * 7700 = -1850
    ∧ (-12400 / 7 : ℚ) ≠ -1850 := by
  have h1 : fmtDate zoneEastern "2024-11-02" = some 1730520000000 := by decide
  have h2 : fmtDate zoneEastern "2024-11-04" = some 1730696400000 := by decide
  have hs : "2024-11-02".data < "2024-11-04".data := by decide
  have e1 := newDate_sub_days 1730520000000 7
  have e2 := newDate_sub_days 1730696400000 7
  simp only [Int.cast_ofNat] at e1 e2
  refine ⟨?_, by decide, by decide, by norm_num, by norm_num⟩
  simp [computeSeries, sortEntries, List.insertionSort, List.orderedInsert, dateOrd,
    localeCompare, seriesPoint, window, tdeeOf, avgIntake, spanDays, h1, h2, hs, dateGe,
    dateLe, e1, e2, timeClip, List.filter, KCALS_PER_KG]
  norm_num

/-! ## Shape of the series -/

theorem computeSeries_eq_map (tz : Zone) (entries : List Entry) (g wd : ℚ) :
    computeSeries tz entries g wd
      = (sortEntries entries).map
          (seriesPoint tz (sortEntries entries) ((g / 7) * KCALS_PER_KG) wd) := by
  unfold computeSeries
  split
  · rename_i h
    have h0 : entries = [] := List.length_eq_zero.mp h
    subst h0
    simp [sortEntries]
  · rfl

theorem spanDays_pos (tz : Zone) (first last : Entry) : 0 < spanDays tz first last := by
  unfold spanDays
  split
  · exact lt_of_lt_of_le one_pos (le_max_left _ _)
  · exact one_pos

theorem tdeeOf_of_two (tz : Zone) (w : List Entry) (first last : Entry)
    (hf : w.head? = some first) (hl : w.getLast? = some last) (h2 : 2 ≤ w.length) :
    tdeeOf tz w
      = avgIntake w + (last.weight - first.weight) / spanDays tz first last * KCALS_PER_KG := by
  simp [tdeeOf, hf, hl, h2]

/-! ## Sign of the correction (C3) -/

/-- What the code does at every point whose window holds at least two entries: a weight
loss over the window puts `tdee` below `avgIntake`, a weight gain puts it above. -/
theorem tdee_moves_with_weight (tz : Zone) (entries : List Entry) (g wd : ℚ) (i : Nat)
    (p : SeriesPoint) (hp : (computeSeries tz entries g wd)[i]? = some p) :
    ∃ cur, (sortEntries entries)[i]? = some cur ∧ p.date = cur.date ∧
      p.windowCount = (window tz (sortEntries entries) wd cur).length ∧
      ∀ first last, (window tz (sortEntries entries) wd cur).head? = some first →
        (window tz (sortEntries entries) wd cur).getLast? = some last →
        2 ≤ p.windowCount →
        (last.weight < first.weight → p.tdee < p.avgIntake) ∧
        (first.weight < last.weight → p.avgIntake < p.tdee) := by
  rw [computeSeries_eq_map, List.getElem?_map] at hp
  cases hc : (sortEntries entries)[i]? with
  | none => simp [hc] at hp
  | some cur =>
    simp only [hc, Option.map_some', Option.some.injEq] at hp
    subst hp
    refine ⟨cur, rfl, rfl, rfl, ?_⟩
    intro first last hf hl h2
    have hd := spanDays_pos tz first last
    have hk : (0 : ℚ) < KCALS_PER_KG := by norm_num [KCALS_PER_KG]
    have ht := tdeeOf_of_two tz _ first last hf hl h2
    simp only [seriesPoint, ht]
    constructor
    · intro hlt
      have : 0 < (first.weight - last.weight) / spanDays tz first last * KCALS_PER_KG :=
        mul_pos (div_pos (sub_pos.mpr hlt) hd) hk
      have e : (last.weight - first.weight) / spanDays tz first last * KCALS_PER_KG
          = -((first.weight - last.weight) / spanDays tz first last * KCALS_PER_KG) := by
        ring
      rw [e]; linarith
    · intro hgt
      have : 0 < (last.weight - first.weight) / spanDays tz first last * KCALS_PER_KG :=
        mul_pos (div_pos (sub_pos.mpr hgt) hd) hk
      linarith

/-- C3, at the failing input: for the entries (2024-01-01, 80 kg, 2000) and
(2024-01-08, 79 kg, 2000) with a window of 7 days, the window of the second point holds both
entries, a loss of one kilogram, and the code puts its `tdee`, 900, below its `avgIntake`,
2000, where the claim puts it above. -/
theorem c3_loss_puts_tdee_below_intake :
    (computeSeries zoneUTC
        [⟨"2024-01-01", 80, 2000⟩, ⟨"2024-01-08", 79, 2000⟩] (-1 / 2) 7)[1]?
      = some ⟨"2024-01-08", 900, 2550, 2000, 2⟩
    ∧ window zoneUTC (sortEntries [⟨"2024-01-01", 80, 2000⟩, ⟨"2024-01-08", 79, 2000⟩]) 7
        ⟨"2024-01-08", 79, 2000⟩
      = [⟨"2024-01-01", 80, 2000⟩, ⟨"2024-01-08", 79, 2000⟩]
    ∧ (79 : ℚ) < 80 ∧ (900 : ℚ) < 2000 := by
  have h1 : fmtDate zoneUTC "2024-01-01" = some 1704067200000 := by decide
  have h2 : fmtDate zoneUTC "2024-01-08" = some 1704672000000 := by decide
  have hs : "2024-01-01".data < "2024-01-08".data := by decide
  have e1 := newDate_sub_days 1704067200000 7
  have e2 := newDate_sub_days 1704672000000 7
  simp only [Int.cast_ofNat] at e1 e2
  refine ⟨?_, ?_, by norm_num, by norm_num⟩
  · simp [computeSeries, sortEntries, List.insertionSort, List.orderedInsert, dateOrd,
      localeCompare, seriesPoint, window, tdeeOf, avgIntake, spanDays, h1, h2, hs, dateGe,
      dateLe, e1, e2, timeClip, List.filter, KCALS_PER_KG]
    norm_num
  · simp [sortEntries, List.insertionSort, List.orderedInsert, dateOrd,
      localeCompare, window, h1, h2, hs, dateGe, dateLe, e2, timeClip, List.filter]

/-! ## The target intake (C4) -/

/-- C4: every point of `computeSeries` has `target = avgIntake - (goalRate / 7) * 7700`;
with `goalRate = -0.5` that is `avgIntake + 550`. -/
theorem c4_target_formula (tz : Zone) (entries : List Entry) (g wd : ℚ) (p : SeriesPoint)
    (hp : p ∈ computeSeries tz entries g wd) :
    p.target = p.avgIntake - (g / 7) * 7700 ∧
      (g = -1 / 2 → p.target = p.avgIntake + 550) := by
  rw [computeSeries_eq_map, List.mem_map] at hp
  obtain ⟨cur, _, rfl⟩ := hp
  refine ⟨by simp [seriesPoint, KCALS_PER_KG], ?_⟩
  intro hg
  subst hg
  simp only [seriesPoint, KCALS_PER_KG]
  norm_num

/-- C4 at the worked example: the point of 2024-01-08, with `avgIntake` 2000 and goal rate
`-0.5`, has `target` 2550. -/
theorem c4_target_formula_witness :
    (⟨"2024-01-08", 900, 2550, 2000, 2⟩ : SeriesPoint) ∈ computeSeries zoneEastern
        [⟨"2024-01-01", 80, 2000⟩, ⟨"2024-01-08", 79, 2000⟩] (-1 / 2) 7 ∧
    ((2550 : ℚ) = 2000 - ((-1 / 2 : ℚ) / 7) * 7700 ∧
      ((-1 / 2 : ℚ) = -1 / 2 → (2550 : ℚ) = 2000 + 550)) :=
  ⟨by rw [computeSeries_worked_example]; simp,
   c4_target_formula zoneEastern _ (-1 / 2) 7 ⟨"2024-01-08", 900, 2550, 2000, 2⟩
     (by rw [computeSeries_worked_example]; simp)⟩

/-! ## Sorting facts -/

theorem dayNumber_some {s : String} {n : Int} (h : dayNumber s = some n) :
    ∃ y m d, parseYMD s = some (y, m, d) ∧ 1 ≤ m ∧ m ≤ 12 ∧ 1 ≤ d ∧ d ≤ daysInMonth y m ∧
      n = dayFromCivil y m d := by
  unfold dayNumber at h
  split at h
  · rename_i y m d hp
    split at h
    · rename_i hc
      simp only [Option.some.injEq] at h
      exact ⟨y, m, d, hp, hc.1, hc.2.1, hc.2.2.1, hc.2.2.2, h.symm⟩
    · simp at h
  · simp at h

/-- On valid dates the order of `localeCompare` is the chronological order. -/
theorem data_lt_iff_dayNumber_lt {a b : String} {x y : Int} (ha : dayNumber a = some x)
    (hb : dayNumber b = some y) : a.data < b.data ↔ x < y := by
  obtain ⟨ya, ma, da, hpa, h1, h2, h3, h4, rfl⟩ := dayNumber_some ha
  obtain ⟨yb, mb, db, hpb, g1, g2, g3, g4, rfl⟩ := dayNumber_some hb
  rw [data_lt_iff_of_parse hpa hpb, dayFromCivil_lt_iff h1 h2 h3 h4 g1 g2 g3 g4]

theorem data_le_iff_dayNumber_le {a b : String} {x y : Int} (ha : dayNumber a = some x)
    (hb : dayNumber b = some y) : a.data ≤ b.data ↔ x ≤ y := by
  rw [← not_lt, ← not_lt (a := y), data_lt_iff_dayNumber_lt hb ha]

theorem sortEntries_perm (l : List Entry) : (sortEntries l).Perm l :=
  List.perm_insertionSort _ _

theorem sortEntries_sorted (l : List Entry) : (sortEntries l).Sorted dateOrd :=
  haveI := dateOrd_total
  haveI := dateOrd_trans
  List.sorted_insertionSort _ _

theorem sortEntries_length (l : List Entry) : (sortEntries l).length = l.length :=
  List.length_insertionSort _ _

theorem computeSeries_dates (tz : Zone) (entries : List Entry) (g wd : ℚ) :
    (computeSeries tz entries g wd).map SeriesPoint.date
      = (sortEntries entries).map Entry.date := by
  rw [computeSeries_eq_map, List.map_map]
  rfl

/-! ## One point per entry (C5) -/

theorem computeSeries_length (tz : Zone) (entries : List Entry) (g wd : ℚ) :
    (computeSeries tz entries g wd).length = entries.length := by
  rw [computeSeries_eq_map, List.length_map, sortEntries_length]

theorem dedupByDate_of_nodup (l : List Entry) (h : (l.map Entry.date).Nodup) :
    dedupByDate l = l := by
  induction l with
  | nil => rfl
  | cons e es ih =>
    rw [List.map_cons, List.nodup_cons] at h
    have hn : es.any (fun x => decide (x.date = e.date)) = false := by
      rw [Bool.eq_false_iff]
      intro hany
      rw [List.any_eq_true] at hany
      obtain ⟨x, hx, hd⟩ := hany
      exact h.1 (List.mem_map.mpr ⟨x, hx, of_decide_eq_true hd⟩)
    simp only [dedupByDate, hn, Bool.false_eq_true, ↓reduceIte, ih h.2]

/-- C5, as stated, fails on duplicate dates: two entries dated 2024-01-01 give two points,
while the collection deduplicated by date has one entry. -/
theorem c5_duplicate_dates_give_two_points :
    (computeSeries zoneUTC
        [⟨"2024-01-01", 80, 2000⟩, ⟨"2024-01-01", 81, 2100⟩] (-1 / 2) 7).length = 2
    ∧ (dedupByDate [⟨"2024-01-01", 80, 2000⟩, ⟨"2024-01-01", 81, 2100⟩]).length = 1 := by
  constructor
  · rw [computeSeries_length]; rfl
  · simp [dedupByDate]

/-- C5, amended: `computeSeries` returns one point per input entry, duplicates included:
its length is the length of the input (which is the input deduplicated by date when the
dates are pairwise distinct); the dates of the points are the dates of the entries,
rearranged in ascending order of `localeCompare`, and any two of them that are valid
calendar dates come in chronological order; the empty collection yields the empty
sequence. -/
theorem c5_one_point_per_entry (tz : Zone) (entries : List Entry) (g wd : ℚ) :
    (computeSeries tz entries g wd).length = entries.length
    ∧ ((entries.map Entry.date).Nodup → dedupByDate entries = entries)
    ∧ ((computeSeries tz entries g wd).map SeriesPoint.date).Perm (entries.map Entry.date)
    ∧ ((computeSeries tz entries g wd).map SeriesPoint.date).Pairwise
        (fun a b => a.data ≤ b.data)
    ∧ ((computeSeries tz entries g wd).map SeriesPoint.date).Pairwise
        (fun a b => ∀ x y, dayNumber a = some x → dayNumber b = some y → x ≤ y)
    ∧ computeSeries tz [] g wd = [] := by
  have hs : ((computeSeries tz entries g wd).map SeriesPoint.date).Pairwise
      (fun a b => a.data ≤ b.data) := by
    rw [computeSeries_dates, List.pairwise_map]
    exact (sortEntries_sorted entries).imp (fun {a b} h => (dateOrd_iff a b).mp h)
  refine ⟨computeSeries_length tz entries g wd, dedupByDate_of_nodup entries, ?_, hs, ?_, ?_⟩
  · rw [computeSeries_dates]
    exact (sortEntries_perm entries).map _
  · exact hs.imp (fun {a b} h x y hx hy => (data_le_iff_dayNumber_le hx hy).mp h)
  · rfl

/-- C5 amended, at the entries dated 2024-01-08 and 2024-01-01 (distinct dates, given out
of order). -/
theorem c5_one_point_per_entry_witness :
    (([⟨"2024-01-08", 79, 2000⟩, ⟨"2024-01-01", 80, 2000⟩] : List Entry).map
        Entry.date).Nodup
    ∧ (computeSeries zoneUTC
        [⟨"2024-01-08", 79, 2000⟩, ⟨"2024-01-01", 80, 2000⟩] (-1 / 2) 7).length = 2
    ∧ dedupByDate [⟨"2024-01-08", 79, 2000⟩, ⟨"2024-01-01", 80, 2000⟩]
        = [⟨"2024-01-08", 79, 2000⟩, ⟨"2024-01-01", 80, 2000⟩] :=
  ⟨by decide,
   (c5_one_point_per_entry zoneUTC
      [⟨"2024-01-08", 79, 2000⟩, ⟨"2024-01-01", 80, 2000⟩] (-1 / 2) 7).1,
   (c5_one_point_per_entry zoneUTC
      [⟨"2024-01-08", 79, 2000⟩, ⟨"2024-01-01", 80, 2000⟩] (-1 / 2) 7).2.1 (by decide)⟩

/-! ## The summary (C6) -/

theorem sortEntries_getLast (entries : List Entry) (h : entries ≠ []) :
    ∃ lastEntry, (sortEntries entries).getLast? = some lastEntry ∧ lastEntry ∈ entries ∧
      ∀ e ∈ entries, e.date.data ≤ lastEntry.date.data := by
  have hne : sortEntries entries ≠ [] := by
    intro h0
    have := sortEntries_length entries
    rw [h0] at this
    exact h (List.length_eq_zero.mp this.symm)
  obtain ⟨ys, x, hx⟩ : ∃ ys x, sortEntries entries = ys ++ [x] := by
    rcases List.eq_nil_or_concat (sortEntries entries) with h0 | ⟨ys, x, hx⟩
    · exact absurd h0 hne
    · exact ⟨ys, x, by simpa using hx⟩
  refine ⟨x, by rw [hx]; simp, ?_, ?_⟩
  · exact (sortEntries_perm entries).mem_iff.mp (by rw [hx]; simp)
  · intro e he
    have hmem : e ∈ ys ++ [x] := by
      rw [← hx]; exact (sortEntries_perm entries).mem_iff.mpr he
    have hsorted := sortEntries_sorted entries
    rw [hx] at hsorted
    rcases List.mem_append.mp hmem with h1 | h1
    · have := (List.pairwise_append.mp hsorted).2.2 e h1 x (by simp)
      exact (dateOrd_iff e x).mp this
    · have : e = x := by simpa using h1
      subst this
      exact le_refl _

theorem mathRound_intCast (n : Int) : mathRound (n : ℚ) = n := by
  unfold mathRound
  rw [Int.floor_eq_iff]
  constructor <;> norm_num

theorem numberToString_ofNat_pos (n : Nat) (h : n ≠ 0) :
    numberToString (n : ℚ) = String.mk (positiveToString n 1) := by
  unfold numberToString
  have h1 : ((n : ℚ)).num = (n : Int) := Rat.num_natCast _
  have h2 : ((n : ℚ)).den = 1 := Rat.den_natCast _
  rw [h1, h2]
  have : ¬ ((n : Int) = 0) := by omega
  have h3 : ¬ ((n : Int) < 0) := by omega
  simp [this, h3]

theorem numberToString_neg_ofNat (n : Nat) (h : n ≠ 0) :
    numberToString (-(n : ℚ)) = String.mk ('-' :: positiveToString n 1) := by
  unfold numberToString
  have h1 : (-(n : ℚ)).num = -(n : Int) := by simp
  have h2 : (-(n : ℚ)).den = 1 := by simp
  rw [h1, h2]
  have : ¬ (-(n : Int) = 0) := by omega
  have h3 : (-(n : Int) < 0) := by omega
  simp [this, h3]

/-! ## Numbers with overflow: finite results -/

theorem JSNumber.ofRat_eq_fin {q r : ℚ} (h : JSNumber.ofRat q = .fin r) :
    r = q ∧ |q| < (overflowBound : ℚ) := by
  unfold JSNumber.ofRat at h
  split at h
  · rename_i hq
    simp only [JSNumber.fin.injEq] at h
    exact ⟨h.symm, hq⟩
  · split at h <;> simp at h

theorem JSNumber.ofRat_of_lt {q : ℚ} (h : |q| < (overflowBound : ℚ)) :
    JSNumber.ofRat q = .fin q := by
  simp [JSNumber.ofRat, h]

theorem JSNumber.add_eq_fin {x y : JSNumber} {r : ℚ} (h : x.add y = .fin r) :
    ∃ a b, x = .fin a ∧ y = .fin b ∧ r = a + b := by
  cases x <;> cases y <;> simp [JSNumber.add] at h
  rename_i a b
  exact ⟨a, b, rfl, rfl, (JSNumber.ofRat_eq_fin h).1⟩

theorem JSNumber.sub_eq_fin {x y : JSNumber} {r : ℚ} (h : x.sub y = .fin r) :
    ∃ a b, x = .fin a ∧ y = .fin b ∧ r = a - b := by
  unfold JSNumber.sub at h
  obtain ⟨a, b, ha, hb, hr⟩ := JSNumber.add_eq_fin h
  cases y <;> simp [JSNumber.neg] at hb
  rename_i c
  exact ⟨a, c, ha, rfl, by rw [hr, ← hb]; ring⟩

theorem JSNumber.mul_eq_fin {x y : JSNumber} {r : ℚ} (h : x.mul y = .fin r) :
    ∃ a b, x = .fin a ∧ y = .fin b ∧ r = a * b := by
  cases x <;> cases y <;> simp [JSNumber.mul] at h
  · rename_i a b
    exact ⟨a, b, rfl, rfl, (JSNumber.ofRat_eq_fin h).1⟩
  all_goals (split at h <;> try split at h) <;> simp at h

theorem JSNumber.div_eq_fin {x : JSNumber} {d r : ℚ} (hd : d ≠ 0)
    (h : x.div (.fin d) = .fin r) : ∃ a, x = .fin a ∧ r = a / d := by
  cases x <;> simp [JSNumber.div, hd] at h
  · rename_i a
    exact ⟨a, rfl, (JSNumber.ofRat_eq_fin h).1⟩
  all_goals (split at h <;> simp at h)

theorem JSNumber.isFinite_iff (x : JSNumber) : x.isFinite = true ↔ ∃ q, x = .fin q := by
  cases x <;> simp [JSNumber.isFinite]

theorem JSNumber.isFinite_round (x : JSNumber) : x.round.isFinite = x.isFinite := by
  cases x <;> rfl

theorem JSNumber.ofRat_of_bounds {q : ℚ} (h1 : -(overflowBound : ℚ) < q)
    (h2 : q < (overflowBound : ℚ)) : JSNumber.ofRat q = .fin q :=
  JSNumber.ofRat_of_lt (abs_lt.mpr ⟨h1, h2⟩)

theorem JSNumber.ofRat_of_le_neg {q : ℚ} (h : q ≤ -(overflowBound : ℚ)) :
    JSNumber.ofRat q = .negInf := by
  have hb : (0 : ℚ) < (overflowBound : ℚ) := by norm_num [overflowBound]
  have h1 : ¬ |q| < (overflowBound : ℚ) := by
    rw [abs_lt]
    intro ⟨h2, _⟩
    linarith
  have h2 : q < 0 := by linarith
  simp [JSNumber.ofRat, h1, h2]

theorem JSNumber.ofRat_of_ge {q : ℚ} (h : (overflowBound : ℚ) ≤ q) :
    JSNumber.ofRat q = .posInf := by
  have hb : (0 : ℚ) < (overflowBound : ℚ) := by norm_num [overflowBound]
  have h1 : ¬ |q| < (overflowBound : ℚ) := by
    rw [abs_lt]
    intro ⟨_, h2⟩
    linarith
  have h2 : ¬ q < 0 := by linarith
  simp [JSNumber.ofRat, h1, h2]

theorem overflowBound_eq : overflowBound = 2 ^ 1024 - 2 ^ 970 := by
  norm_num [overflowBound]

theorem JSNumber.add_fin (a b r : ℚ) (h : a + b = r) (h1 : -(overflowBound : ℚ) < r)
    (h2 : r < (overflowBound : ℚ)) : (JSNumber.fin a).add (.fin b) = .fin r := by
  show JSNumber.ofRat (a + b) = _
  rw [h]
  exact JSNumber.ofRat_of_bounds h1 h2

theorem JSNumber.sub_fin (a b r : ℚ) (h : a - b = r) (h1 : -(overflowBound : ℚ) < r)
    (h2 : r < (overflowBound : ℚ)) : (JSNumber.fin a).sub (.fin b) = .fin r := by
  show JSNumber.ofRat (a + -b) = _
  rw [← sub_eq_add_neg, h]
  exact JSNumber.ofRat_of_bounds h1 h2

theorem JSNumber.mul_fin (a b r : ℚ) (h : a * b = r) (h1 : -(overflowBound : ℚ) < r)
    (h2 : r < (overflowBound : ℚ)) : (JSNumber.fin a).mul (.fin b) = .fin r := by
  show JSNumber.ofRat (a * b) = _
  rw [h]
  exact JSNumber.ofRat_of_bounds h1 h2

theorem JSNumber.div_fin (a b r : ℚ) (hb : b ≠ 0) (h : a / b = r)
    (h1 : -(overflowBound : ℚ) < r) (h2 : r < (overflowBound : ℚ)) :
    (JSNumber.fin a).div (.fin b) = .fin r := by
  have : (JSNumber.fin a).div (.fin b) = JSNumber.ofRat (a / b) := by
    simp [JSNumber.div, hb]
  rw [this, h]
  exact JSNumber.ofRat_of_bounds h1 h2

/-! ## The two series agree where the second is finite -/

theorem foldl_add_eq_fin (w : List Entry) (x : JSNumber) (r : ℚ)
    (h : w.foldl (fun (sum : JSNumber) e => sum.add (.fin e.calories)) x = .fin r) :
    ∃ a, x = .fin a ∧ r = w.foldl (fun sum e => sum + e.calories) a := by
  induction w generalizing x with
  | nil => exact ⟨r, by simpa using h, rfl⟩
  | cons e es ih =>
    rw [List.foldl_cons] at h
    obtain ⟨a', ha', hr⟩ := ih _ h
    obtain ⟨a, b, hx, hb, hab⟩ := JSNumber.add_eq_fin ha'
    simp only [JSNumber.fin.injEq] at hb
    refine ⟨a, hx, ?_⟩
    rw [List.foldl_cons, hr, hab, hb]

theorem avgIntakeNumber_eq_fin (w : List Entry) (r : ℚ) (h : avgIntakeNumber w = .fin r) :
    r = avgIntake w := by
  unfold avgIntakeNumber at h
  have hd : (if w.length = 0 then (1 : ℚ) else (w.length : ℚ)) ≠ 0 := by
    split
    · exact one_ne_zero
    · rename_i hl
      exact_mod_cast hl
  obtain ⟨a, ha, hr⟩ := JSNumber.div_eq_fin hd h
  obtain ⟨z, hz, hs⟩ := foldl_add_eq_fin w _ a ha
  simp only [JSNumber.fin.injEq] at hz
  subst hz
  rw [hr, hs]
  rfl

theorem tdeeOfNumber_eq_fin (tz : Zone) (w : List Entry) (t : ℚ)
    (h : tdeeOfNumber tz w = .fin t) : t = tdeeOf tz w := by
  unfold tdeeOfNumber at h
  unfold tdeeOf
  split at h
  · rename_i first last hf hl
    simp only [hf, hl]
    split at h
    · rename_i h2
      rw [if_pos h2]
      obtain ⟨a, b, ha, hb, hab⟩ := JSNumber.add_eq_fin h
      obtain ⟨c, k, hc, hk, hck⟩ := JSNumber.mul_eq_fin hb
      obtain ⟨dw, hdw, hq⟩ := JSNumber.div_eq_fin (ne_of_gt (spanDays_pos tz first last)) hc
      obtain ⟨l, f, hl', hf', hlf⟩ := JSNumber.sub_eq_fin hdw
      simp only [JSNumber.fin.injEq] at hk hl' hf'
      have := avgIntakeNumber_eq_fin w a ha
      rw [hab, hck, hq, hlf, ← this, ← hk, ← hl', ← hf']
    · rename_i h2
      rw [if_neg h2]
      exact avgIntakeNumber_eq_fin w t h
  · rename_i hn
    exact avgIntakeNumber_eq_fin w t h

theorem goalDeltaPerDayNumber_eq_fin (g r : ℚ) (h : goalDeltaPerDayNumber g = .fin r) :
    r = (g / 7) * KCALS_PER_KG := by
  unfold goalDeltaPerDayNumber at h
  obtain ⟨a, b, ha, hb, hab⟩ := JSNumber.mul_eq_fin h
  obtain ⟨c, hc, hq⟩ := JSNumber.div_eq_fin (by norm_num) ha
  simp only [JSNumber.fin.injEq] at hb hc
  rw [hab, hq, ← hb, ← hc]

theorem computeSeriesNumber_eq_map (tz : Zone) (entries : List Entry) (g wd : ℚ) :
    computeSeriesNumber tz entries g wd
      = (sortEntries entries).map
          (seriesPointNumber tz (sortEntries entries) (goalDeltaPerDayNumber g) wd) := by
  unfold computeSeriesNumber
  split
  · rename_i h
    have h0 : entries = [] := List.length_eq_zero.mp h
    subst h0
    simp [sortEntries]
  · rfl

theorem computeSeriesNumber_length (tz : Zone) (entries : List Entry) (g wd : ℚ) :
    (computeSeriesNumber tz entries g wd).length = entries.length := by
  rw [computeSeriesNumber_eq_map, List.length_map, sortEntries_length]

/-- The series on Numbers has the points of the exact series: the same dates and window
counts, and each number of a point, when it is finite, is the exact one. -/
theorem computeSeriesNumber_agrees (tz : Zone) (entries : List Entry) (g wd : ℚ) (i : Nat)
    (p : NumberPoint) (h : (computeSeriesNumber tz entries g wd)[i]? = some p) :
    ∃ q, (computeSeries tz entries g wd)[i]? = some q
      ∧ p.date = q.date ∧ p.windowCount = q.windowCount
      ∧ (∀ t, p.tdee = .fin t → t = q.tdee)
      ∧ (∀ t, p.target = .fin t → t = q.target)
      ∧ (∀ t, p.avgIntake = .fin t → t = q.avgIntake) := by
  rw [computeSeriesNumber_eq_map, List.getElem?_map] at h
  cases hc : (sortEntries entries)[i]? with
  | none => simp [hc] at h
  | some cur =>
    simp only [hc, Option.map_some', Option.some.injEq] at h
    subst h
    refine ⟨seriesPoint tz (sortEntries entries) ((g / 7) * KCALS_PER_KG) wd cur, ?_, rfl, rfl,
      ?_, ?_, ?_⟩
    · rw [computeSeries_eq_map, List.getElem?_map, hc]
      rfl
    · intro t ht
      exact tdeeOfNumber_eq_fin tz _ t ht
    · intro t ht
      obtain ⟨a, b, ha, hb, hab⟩ := JSNumber.sub_eq_fin ht
      have h1 := avgIntakeNumber_eq_fin _ a ha
      have h2 := goalDeltaPerDayNumber_eq_fin g b hb
      simp only [seriesPoint]
      rw [hab, h1, h2]
    · intro t ht
      exact avgIntakeNumber_eq_fin _ t ht

/-! ## The summary (C6), continued -/

theorem mathRound_eq_iff (x : ℚ) (n : Int) :
    mathRound x = n ↔ (n : ℚ) - 1 / 2 ≤ x ∧ x < (n : ℚ) + 1 / 2 := by
  unfold mathRound
  rw [Int.floor_eq_iff]
  constructor
  · rintro ⟨h1, h2⟩
    constructor <;> linarith
  · rintro ⟨h1, h2⟩
    constructor <;> linarith

theorem shown_rounded (x : JSNumber) :
    (x.isFinite = false → (if x.round.isFinite then x.round.toString else "—") = "—")
    ∧ (∀ t, x = .fin t → ∃ n : Int, (n : ℚ) - 1 / 2 ≤ t ∧ t < (n : ℚ) + 1 / 2
        ∧ (if x.round.isFinite then x.round.toString else "—") = numberToString (n : ℚ)) := by
  constructor
  · intro h
    rw [JSNumber.isFinite_round, h]
    simp
  · intro t ht
    subst ht
    refine ⟨mathRound t, ((mathRound_eq_iff t _).mp rfl).1, ((mathRound_eq_iff t _).mp rfl).2, ?_⟩
    simp [JSNumber.round, JSNumber.isFinite, JSNumber.toString]

theorem shown_signed (x : JSNumber) :
    (x.isFinite = false →
      (if !x.isFinite then "—"
        else (if x.round.isPositive then "+" else "") ++ x.round.toString) = "—")
    ∧ (∀ t, x = .fin t → ∃ n : Int, (n : ℚ) - 1 / 2 ≤ t ∧ t < (n : ℚ) + 1 / 2
        ∧ (if !x.isFinite then "—"
            else (if x.round.isPositive then "+" else "") ++ x.round.toString)
          = (if 0 < n then "+" else "") ++ numberToString (n : ℚ)) := by
  constructor
  · intro h
    rw [h]
    simp
  · intro t ht
    subst ht
    refine ⟨mathRound t, ((mathRound_eq_iff t _).mp rfl).1, ((mathRound_eq_iff t _).mp rfl).2, ?_⟩
    simp [JSNumber.round, JSNumber.isFinite, JSNumber.toString, JSNumber.isPositive]

theorem updateSummary_of_last (tz : Zone) (entries : List Entry) (settings : Settings)
    (lastEntry : Entry) (hlast : (sortEntries entries).getLast? = some lastEntry) :
    updateSummary tz entries settings
      = some
        { currentTDEE :=
            if (tdeeOfNumber tz (window tz (sortEntries entries) settings.windowDays
                lastEntry)).round.isFinite
            then (tdeeOfNumber tz (window tz (sortEntries entries) settings.windowDays
                lastEntry)).round.toString
            else "—"
          tdeeNote := "Based on last " ++ numberToString settings.windowDays ++ " days"
          needToEat :=
            if ((tdeeOfNumber tz (window tz (sortEntries entries) settings.windowDays
                lastEntry)).add (goalDeltaPerDayNumber settings.goalKgPerWeek)).round.isFinite
            then ((tdeeOfNumber tz (window tz (sortEntries entries) settings.windowDays
                lastEntry)).add (goalDeltaPerDayNumber settings.goalKgPerWeek)).round.toString
            else "—"
          calChange :=
            if !(((tdeeOfNumber tz (window tz (sortEntries entries) settings.windowDays
                lastEntry)).add (goalDeltaPerDayNumber settings.goalKgPerWeek)).sub
                  (.fin lastEntry.calories)).isFinite
            then "—"
            else
              (if (((tdeeOfNumber tz (window tz (sortEntries entries) settings.windowDays
                  lastEntry)).add (goalDeltaPerDayNumber settings.goalKgPerWeek)).sub
                    (.fin lastEntry.calories)).round.isPositive then "+" else "")
              ++ (((tdeeOfNumber tz (window tz (sortEntries entries) settings.windowDays
                  lastEntry)).add (goalDeltaPerDayNumber settings.goalKgPerWeek)).sub
                    (.fin lastEntry.calories)).round.toString } := by
  have hne : entries ≠ [] := by
    intro h0
    subst h0
    simp [sortEntries] at hlast
  have hlen : entries.length ≠ 0 := fun h => hne (List.length_eq_zero.mp h)
  have hnum : (computeSeriesNumber tz entries settings.goalKgPerWeek
      settings.windowDays).getLast?
      = some (seriesPointNumber tz (sortEntries entries)
          (goalDeltaPerDayNumber settings.goalKgPerWeek) settings.windowDays lastEntry) := by
    rw [computeSeriesNumber_eq_map, List.getLast?_map, hlast]
    rfl
  have h1 := hnum
  have h2 := hlast
  rw [List.getLast?_eq_getElem?] at h1 h2
  rw [sortEntries_length] at h2
  unfold updateSummary
  rw [if_neg hlen, if_neg (by rw [computeSeriesNumber_length]; exact hlen)]
  simp only [h1, h2]
  rfl

theorem c6_summary_rounded_when_finite (tz : Zone) (entries : List Entry)
    (settings : Settings) :
    updateSummary tz [] settings
      = some { currentTDEE := "—", tdeeNote := "Add entries to compute TDEE",
               needToEat := "—", calChange := "—" }
    ∧ (entries ≠ [] →
      ∃ lastNumber lastPoint lastEntry view,
        (computeSeriesNumber tz entries settings.goalKgPerWeek settings.windowDays).getLast?
          = some lastNumber
        ∧ (computeSeries tz entries settings.goalKgPerWeek settings.windowDays).getLast?
          = some lastPoint
        ∧ (sortEntries entries).getLast? = some lastEntry
        ∧ lastEntry ∈ entries
        ∧ lastNumber.date = lastEntry.date
        ∧ lastPoint.date = lastEntry.date
        ∧ (∀ e ∈ entries, e.date.data ≤ lastEntry.date.data)
        ∧ (∀ e ∈ entries, ∀ x y, dayNumber e.date = some x →
            dayNumber lastEntry.date = some y → x ≤ y)
        ∧ updateSummary tz entries settings = some view
        ∧ view.tdeeNote = "Based on last " ++ numberToString settings.windowDays ++ " days"
        ∧ (lastNumber.tdee.isFinite = false → view.currentTDEE = "—")
        ∧ (∀ t, lastNumber.tdee = .fin t →
            t = lastPoint.tdee
            ∧ ∃ n : Int, (n : ℚ) - 1 / 2 ≤ t ∧ t < (n : ℚ) + 1 / 2
              ∧ view.currentTDEE = numberToString (n : ℚ))
        ∧ ((lastNumber.tdee.add (goalDeltaPerDayNumber settings.goalKgPerWeek)).isFinite
              = false → view.needToEat = "—")
        ∧ (∀ t, lastNumber.tdee.add (goalDeltaPerDayNumber settings.goalKgPerWeek) = .fin t →
            t = lastPoint.tdee + (settings.goalKgPerWeek / 7) * 7700
            ∧ ∃ n : Int, (n : ℚ) - 1 / 2 ≤ t ∧ t < (n : ℚ) + 1 / 2
              ∧ view.needToEat = numberToString (n : ℚ))
        ∧ (((lastNumber.tdee.add (goalDeltaPerDayNumber settings.goalKgPerWeek)).sub
              (.fin lastEntry.calories)).isFinite = false → view.calChange = "—")
        ∧ (∀ t, (lastNumber.tdee.add (goalDeltaPerDayNumber settings.goalKgPerWeek)).sub
              (.fin lastEntry.calories) = .fin t →
            t = lastPoint.tdee + (settings.goalKgPerWeek / 7) * 7700 - lastEntry.calories
            ∧ ∃ n : Int, (n : ℚ) - 1 / 2 ≤ t ∧ t < (n : ℚ) + 1 / 2
              ∧ view.calChange = (if 0 < n then "+" else "") ++ numberToString (n : ℚ))) := by
  refine ⟨rfl, ?_⟩
  intro hne
  obtain ⟨lastEntry, hlast, hmem, hmax⟩ := sortEntries_getLast entries hne
  have hlen : entries.length ≠ 0 := fun h => hne (List.length_eq_zero.mp h)
  have hnum : (computeSeriesNumber tz entries settings.goalKgPerWeek
      settings.windowDays).getLast?
      = some (seriesPointNumber tz (sortEntries entries)
          (goalDeltaPerDayNumber settings.goalKgPerWeek) settings.windowDays lastEntry) := by
    rw [computeSeriesNumber_eq_map, List.getLast?_map, hlast]
    rfl
  have hseries : (computeSeries tz entries settings.goalKgPerWeek settings.windowDays).getLast?
      = some (seriesPoint tz (sortEntries entries)
          ((settings.goalKgPerWeek / 7) * KCALS_PER_KG) settings.windowDays lastEntry) := by
    rw [computeSeries_eq_map, List.getLast?_map, hlast]
    rfl
  have hview := updateSummary_of_last tz entries settings lastEntry hlast
  have htdee : ∀ t, (seriesPointNumber tz (sortEntries entries)
      (goalDeltaPerDayNumber settings.goalKgPerWeek) settings.windowDays lastEntry).tdee
        = .fin t →
      t = (seriesPoint tz (sortEntries entries)
          ((settings.goalKgPerWeek / 7) * KCALS_PER_KG) settings.windowDays lastEntry).tdee :=
    fun t ht => tdeeOfNumber_eq_fin tz _ t ht
  refine ⟨_, _, lastEntry, _, hnum, hseries, hlast, hmem, rfl, rfl, hmax, ?_, hview, rfl,
    (shown_rounded _).1, ?_, (shown_rounded _).1, ?_, (shown_signed _).1, ?_⟩
  · intro e he x y hx hy
    exact (data_le_iff_dayNumber_le hx hy).mp (hmax e he)
  · intro t ht
    exact ⟨htdee t ht, (shown_rounded _).2 t ht⟩
  · intro t ht
    refine ⟨?_, (shown_rounded _).2 t ht⟩
    obtain ⟨a, b, ha, hb, hab⟩ := JSNumber.add_eq_fin ht
    rw [hab, htdee a ha, goalDeltaPerDayNumber_eq_fin _ b hb, KCALS_PER_KG]
  · intro t ht
    refine ⟨?_, (shown_signed _).2 t ht⟩
    obtain ⟨c, d, hc, hd, hcd⟩ := JSNumber.sub_eq_fin ht
    obtain ⟨a, b, ha, hb, hab⟩ := JSNumber.add_eq_fin hc
    simp only [JSNumber.fin.injEq] at hd
    rw [hcd, hab, htdee a ha, goalDeltaPerDayNumber_eq_fin _ b hb, KCALS_PER_KG, hd]

theorem avgIntakeNumber_overflow_example :
    avgIntakeNumber [⟨"2024-01-01", 10 ^ 308, 2000⟩, ⟨"2024-01-08", -10 ^ 308, 2000⟩]
      = .fin 2000 := by
  have a1 : JSNumber.ofRat (2000 : ℚ) = .fin 2000 :=
    JSNumber.ofRat_of_bounds (by norm_num [overflowBound]) (by norm_num [overflowBound])
  have a2 : JSNumber.ofRat (4000 : ℚ) = .fin 4000 :=
    JSNumber.ofRat_of_bounds (by norm_num [overflowBound]) (by norm_num [overflowBound])
  simp only [avgIntakeNumber, List.foldl, JSNumber.add, JSNumber.div, List.length]
  norm_num [a1, a2]

theorem tdeeOfNumber_overflow_example :
    tdeeOfNumber zoneUTC [⟨"2024-01-01", 10 ^ 308, 2000⟩, ⟨"2024-01-08", -10 ^ 308, 2000⟩]
      = .negInf := by
  have h1 : fmtDate zoneUTC "2024-01-01" = some 1704067200000 := by decide
  have h2 : fmtDate zoneUTC "2024-01-08" = some 1704672000000 := by decide
  have hs : spanDays zoneUTC ⟨"2024-01-01", 10 ^ 308, 2000⟩ ⟨"2024-01-08", -10 ^ 308, 2000⟩
      = 7 := by
    simp [spanDays, h1, h2]
    norm_num
  have d1 : (JSNumber.fin (-10 ^ 308)).sub (.fin (10 ^ 308)) = .negInf := by
    show JSNumber.ofRat (-10 ^ 308 + -(10 ^ 308)) = _
    exact JSNumber.ofRat_of_le_neg (by norm_num [overflowBound])
  have d2 : JSNumber.negInf.div (.fin 7) = .negInf := by
    simp [JSNumber.div]
  have d3 : JSNumber.negInf.mul (.fin KCALS_PER_KG) = .negInf := by
    simp [JSNumber.mul, KCALS_PER_KG]
  simp only [tdeeOfNumber, List.head?, List.getLast?, List.getLast, List.length, hs,
    avgIntakeNumber_overflow_example]
  simp only [Nat.reduceAdd, le_refl, ↓reduceIte, d1, d2, d3]
  rfl

theorem window_overflow_example :
    window zoneUTC [⟨"2024-01-01", 10 ^ 308, 2000⟩, ⟨"2024-01-08", -10 ^ 308, 2000⟩] 7
        ⟨"2024-01-08", -10 ^ 308, 2000⟩
      = [⟨"2024-01-01", 10 ^ 308, 2000⟩, ⟨"2024-01-08", -10 ^ 308, 2000⟩] := by
  have h1 : fmtDate zoneUTC "2024-01-01" = some 1704067200000 := by decide
  have h2 : fmtDate zoneUTC "2024-01-08" = some 1704672000000 := by decide
  have e2 := newDate_sub_days 1704672000000 7
  simp only [Int.cast_ofNat] at e2
  simp [window, h1, h2, e2, dateGe, dateLe, timeClip, List.filter]

theorem sortEntries_overflow_example :
    sortEntries [⟨"2024-01-01", 10 ^ 308, 2000⟩, ⟨"2024-01-08", -10 ^ 308, 2000⟩]
      = [⟨"2024-01-01", 10 ^ 308, 2000⟩, ⟨"2024-01-08", -10 ^ 308, 2000⟩] := by
  have hs : "2024-01-01".data < "2024-01-08".data := by decide
  simp [sortEntries, List.insertionSort, List.orderedInsert, dateOrd, localeCompare, hs]

theorem goalDeltaPerDayNumber_default : goalDeltaPerDayNumber (-1 / 2) = .fin (-550) := by
  have a1 : JSNumber.ofRat (-1 / 14 : ℚ) = .fin (-1 / 14) :=
    JSNumber.ofRat_of_bounds (by norm_num [overflowBound]) (by norm_num [overflowBound])
  have a2 : JSNumber.ofRat (-550 : ℚ) = .fin (-550) :=
    JSNumber.ofRat_of_bounds (by norm_num [overflowBound]) (by norm_num [overflowBound])
  have d1 : (JSNumber.fin (-1 / 2)).div (.fin 7) = .fin (-1 / 14) := by
    have : (JSNumber.fin (-1 / 2)).div (.fin 7) = JSNumber.ofRat (-1 / 2 / 7) := by
      simp [JSNumber.div]
    rw [this, show (-1 / 2 / 7 : ℚ) = -1 / 14 by norm_num, a1]
  have d2 : (JSNumber.fin (-1 / 14)).mul (.fin KCALS_PER_KG) = .fin (-550) := by
    show JSNumber.ofRat (-1 / 14 * KCALS_PER_KG) = _
    rw [show (-1 / 14 * KCALS_PER_KG : ℚ) = -550 by norm_num [KCALS_PER_KG], a2]
  unfold goalDeltaPerDayNumber
  rw [d1, d2]

theorem numberToString_seven : numberToString (7 : ℚ) = "7" := by
  have := numberToString_ofNat_pos 7 (by norm_num)
  simp only [Nat.cast_ofNat] at this
  rw [this]; decide

/-- C6, as stated, fails: two valid entries with distinct dates and the finite weights
`1e308` and `-1e308`, whose difference overflows.  The last point of the series has the
`tdee` `-Infinity`, and the summary shows a dash in place of each of the three numbers. -/
theorem c6_overflow_shows_dash :
    validDate "2024-01-01" ∧ validDate "2024-01-08"
    ∧ |(10 : ℚ) ^ 308| < (overflowBound : ℚ) ∧ |-(10 : ℚ) ^ 308| < (overflowBound : ℚ)
    ∧ (computeSeriesNumber zoneUTC
          [⟨"2024-01-01", 10 ^ 308, 2000⟩, ⟨"2024-01-08", -10 ^ 308, 2000⟩] (-1 / 2) 7).getLast?
        = some ⟨"2024-01-08", .negInf, .fin 2550, .fin 2000, 2⟩
    ∧ updateSummary zoneUTC
          [⟨"2024-01-01", 10 ^ 308, 2000⟩, ⟨"2024-01-08", -10 ^ 308, 2000⟩] ⟨-1 / 2, 7⟩
        = some { currentTDEE := "—", tdeeNote := "Based on last 7 days",
                 needToEat := "—", calChange := "—" } := by
  have hlast : (sortEntries
      [⟨"2024-01-01", 10 ^ 308, 2000⟩, ⟨"2024-01-08", -10 ^ 308, 2000⟩]).getLast?
      = some ⟨"2024-01-08", -10 ^ 308, 2000⟩ := by
    rw [sortEntries_overflow_example]
    rfl
  have ht : (JSNumber.fin 2000).sub (.fin (-550)) = .fin 2550 := by
    show JSNumber.ofRat (2000 + -(-550)) = _
    rw [show (2000 + -(-550) : ℚ) = 2550 by norm_num]
    exact JSNumber.ofRat_of_bounds (by norm_num [overflowBound]) (by norm_num [overflowBound])
  refine ⟨by decide, by decide, ?_, ?_, ?_, ?_⟩
  · rw [abs_of_nonneg (by positivity)]
    norm_num [overflowBound]
  · rw [abs_neg, abs_of_nonneg (by positivity)]
    norm_num [overflowBound]
  · rw [computeSeriesNumber_eq_map, List.getLast?_map, hlast, sortEntries_overflow_example]
    simp only [Option.map_some', seriesPointNumber, window_overflow_example,
      tdeeOfNumber_overflow_example, avgIntakeNumber_overflow_example,
      goalDeltaPerDayNumber_default, ht, List.length]
  · rw [updateSummary_of_last _ _ _ _ hlast, sortEntries_overflow_example]
    simp only [window_overflow_example, tdeeOfNumber_overflow_example,
      goalDeltaPerDayNumber_default, numberToString_seven]
    simp [JSNumber.add, JSNumber.sub, JSNumber.neg, JSNumber.round, JSNumber.isFinite]

/-- The summary of two entries whose three values fall halfway between two integers, on a
host on UTC: the `tdee` is 900.5, the intake to reach the goal 350.5 and its difference
from the last logged intake -1650.5, shown as `901`, `351` and `-1650`. -/
theorem updateSummary_worked_example :
    updateSummary zoneUTC [⟨"2024-01-01", 80, 2000⟩, ⟨"2024-01-08", 79, 2001⟩] ⟨-1 / 2, 7⟩
      = some { currentTDEE := "901", tdeeNote := "Based on last 7 days",
               needToEat := "351", calChange := "-1650" } := by
  have h1 : fmtDate zoneUTC "2024-01-01" = some 1704067200000 := by decide
  have h2 : fmtDate zoneUTC "2024-01-08" = some 1704672000000 := by decide
  have hs : "2024-01-01".data < "2024-01-08".data := by decide
  have e2 := newDate_sub_days 1704672000000 7
  simp only [Int.cast_ofNat] at e2
  have hsort : sortEntries [⟨"2024-01-01", 80, 2000⟩, ⟨"2024-01-08", 79, 2001⟩]
      = [⟨"2024-01-01", 80, 2000⟩, ⟨"2024-01-08", 79, 2001⟩] := by
    simp [sortEntries, List.insertionSort, List.orderedInsert, dateOrd, localeCompare, hs]
  have hlast : (sortEntries [⟨"2024-01-01", 80, 2000⟩, ⟨"2024-01-08", 79, 2001⟩]).getLast?
      = some ⟨"2024-01-08", 79, 2001⟩ := by
    rw [hsort]
    rfl
  have hw : window zoneUTC [⟨"2024-01-01", 80, 2000⟩, ⟨"2024-01-08", 79, 2001⟩] 7
      ⟨"2024-01-08", 79, 2001⟩
      = [⟨"2024-01-01", 80, 2000⟩, ⟨"2024-01-08", 79, 2001⟩] := by
    simp [window, h1, h2, e2, dateGe, dateLe, timeClip, List.filter]
  have hsp : spanDays zoneUTC ⟨"2024-01-01", 80, 2000⟩ ⟨"2024-01-08", 79, 2001⟩ = 7 := by
    simp [spanDays, h1, h2]
    norm_num
  have s1 : (JSNumber.fin 0).add (.fin 2000) = .fin 2000 :=
    JSNumber.add_fin _ _ _ (by norm_num) (by norm_num [overflowBound])
      (by norm_num [overflowBound])
  have s2 : (JSNumber.fin 2000).add (.fin 2001) = .fin 4001 :=
    JSNumber.add_fin _ _ _ (by norm_num) (by norm_num [overflowBound])
      (by norm_num [overflowBound])
  have s3 : (JSNumber.fin 4001).div (.fin 2) = .fin (4001 / 2) :=
    JSNumber.div_fin _ _ _ (by norm_num) rfl (by norm_num [overflowBound])
      (by norm_num [overflowBound])
  have havg : avgIntakeNumber [⟨"2024-01-01", 80, 2000⟩, ⟨"2024-01-08", 79, 2001⟩]
      = .fin (4001 / 2) := by
    simp only [avgIntakeNumber, List.foldl, List.length, s1, s2]
    norm_num [s3]
  have t1 : (JSNumber.fin 79).sub (.fin 80) = .fin (-1) :=
    JSNumber.sub_fin _ _ _ (by norm_num) (by norm_num [overflowBound])
      (by norm_num [overflowBound])
  have t2 : (JSNumber.fin (-1)).div (.fin 7) = .fin (-1 / 7) :=
    JSNumber.div_fin _ _ _ (by norm_num) rfl (by norm_num [overflowBound])
      (by norm_num [overflowBound])
  have t3 : (JSNumber.fin (-1 / 7)).mul (.fin KCALS_PER_KG) = .fin (-1100) :=
    JSNumber.mul_fin _ _ _ (by norm_num [KCALS_PER_KG]) (by norm_num [overflowBound])
      (by norm_num [overflowBound])
  have t4 : (JSNumber.fin (4001 / 2)).add (.fin (-1100)) = .fin (1801 / 2) :=
    JSNumber.add_fin _ _ _ (by norm_num) (by norm_num [overflowBound])
      (by norm_num [overflowBound])
  have htdee : tdeeOfNumber zoneUTC [⟨"2024-01-01", 80, 2000⟩, ⟨"2024-01-08", 79, 2001⟩]
      = .fin (1801 / 2) := by
    simp only [tdeeOfNumber, List.head?, List.getLast?, List.getLast, List.length, hsp, havg]
    simp only [Nat.reduceAdd, le_refl, ↓reduceIte, t1, t2, t3, t4]
  have u1 : (JSNumber.fin (1801 / 2)).add (.fin (-550)) = .fin (701 / 2) :=
    JSNumber.add_fin _ _ _ (by norm_num) (by norm_num [overflowBound])
      (by norm_num [overflowBound])
  have u2 : (JSNumber.fin (701 / 2)).sub (.fin 2001) = .fin (-3301 / 2) :=
    JSNumber.sub_fin _ _ _ (by norm_num) (by norm_num [overflowBound])
      (by norm_num [overflowBound])
  have r1 : mathRound (1801 / 2) = 901 :=
    (mathRound_eq_iff _ 901).mpr ⟨by norm_num, by norm_num⟩
  have r2 : mathRound (701 / 2) = 351 :=
    (mathRound_eq_iff _ 351).mpr ⟨by norm_num, by norm_num⟩
  have r3 : mathRound (-3301 / 2) = -1650 :=
    (mathRound_eq_iff _ (-1650)).mpr ⟨by norm_num, by norm_num⟩
  have n1 : numberToString (901 : ℚ) = "901" := by
    have := numberToString_ofNat_pos 901 (by norm_num)
    simp only [Nat.cast_ofNat] at this
    rw [this]; decide
  have n2 : numberToString (351 : ℚ) = "351" := by
    have := numberToString_ofNat_pos 351 (by norm_num)
    simp only [Nat.cast_ofNat] at this
    rw [this]; decide
  have n3 : numberToString (-1650 : ℚ) = "-1650" := by
    have := numberToString_neg_ofNat 1650 (by norm_num)
    simp only [Nat.cast_ofNat] at this
    rw [this]; decide
  rw [updateSummary_of_last _ _ _ _ hlast, hsort]
  simp only [hw, htdee, goalDeltaPerDayNumber_default, numberToString_seven, u1, u2,
    JSNumber.round, JSNumber.isFinite, JSNumber.toString, JSNumber.isPositive, r1, r2, r3]
  norm_num [n1, n2, n3]
  decide

/-- C6 amended, at the worked example: the collection is not empty, and the summary is built
from the last point, that of 2024-01-08. -/
theorem c6_summary_rounded_when_finite_witness :
    ([⟨"2024-01-01", 80, 2000⟩, ⟨"2024-01-08", 79, 2001⟩] : List Entry) ≠ []
    ∧ ∃ lastNumber lastPoint lastEntry view,
        (computeSeriesNumber zoneUTC [⟨"2024-01-01", 80, 2000⟩, ⟨"2024-01-08", 79, 2001⟩]
            (⟨-1 / 2, 7⟩ : Settings).goalKgPerWeek (⟨-1 / 2, 7⟩ : Settings).windowDays).getLast?
          = some lastNumber
        ∧ (computeSeries zoneUTC [⟨"2024-01-01", 80, 2000⟩, ⟨"2024-01-08", 79, 2001⟩]
            (⟨-1 / 2, 7⟩ : Settings).goalKgPerWeek (⟨-1 / 2, 7⟩ : Settings).windowDays).getLast?
          = some lastPoint
        ∧ (sortEntries [⟨"2024-01-01", 80, 2000⟩, ⟨"2024-01-08", 79, 2001⟩]).getLast?
          = some lastEntry
        ∧ lastEntry ∈ ([⟨"2024-01-01", 80, 2000⟩, ⟨"2024-01-08", 79, 2001⟩] : List Entry)
        ∧ lastNumber.date = lastEntry.date
        ∧ lastPoint.date = lastEntry.date
        ∧ (∀ e ∈ ([⟨"2024-01-01", 80, 2000⟩, ⟨"2024-01-08", 79, 2001⟩] : List Entry),
            e.date.data ≤ lastEntry.date.data)
        ∧ (∀ e ∈ ([⟨"2024-01-01", 80, 2000⟩, ⟨"2024-01-08", 79, 2001⟩] : List Entry),
            ∀ x y, dayNumber e.date = some x → dayNumber lastEntry.date = some y → x ≤ y)
        ∧ updateSummary zoneUTC [⟨"2024-01-01", 80, 2000⟩, ⟨"2024-01-08", 79, 2001⟩]
            ⟨-1 / 2, 7⟩ = some view
        ∧ view.tdeeNote
          = "Based on last " ++ numberToString (⟨-1 / 2, 7⟩ : Settings).windowDays ++ " days"
        ∧ (lastNumber.tdee.isFinite = false → view.currentTDEE = "—")
        ∧ (∀ t, lastNumber.tdee = .fin t →
            t = lastPoint.tdee
            ∧ ∃ n : Int, (n : ℚ) - 1 / 2 ≤ t ∧ t < (n : ℚ) + 1 / 2
              ∧ view.currentTDEE = numberToString (n : ℚ))
        ∧ ((lastNumber.tdee.add
              (goalDeltaPerDayNumber (⟨-1 / 2, 7⟩ : Settings).goalKgPerWeek)).isFinite = false →
            view.needToEat = "—")
        ∧ (∀ t, lastNumber.tdee.add
              (goalDeltaPerDayNumber (⟨-1 / 2, 7⟩ : Settings).goalKgPerWeek) = .fin t →
            t = lastPoint.tdee + ((⟨-1 / 2, 7⟩ : Settings).goalKgPerWeek / 7) * 7700
            ∧ ∃ n : Int, (n : ℚ) - 1 / 2 ≤ t ∧ t < (n : ℚ) + 1 / 2
              ∧ view.needToEat = numberToString (n : ℚ))
        ∧ (((lastNumber.tdee.add
              (goalDeltaPerDayNumber (⟨-1 / 2, 7⟩ : Settings).goalKgPerWeek)).sub
                (.fin lastEntry.calories)).isFinite = false → view.calChange = "—")
        ∧ (∀ t, (lastNumber.tdee.add
              (goalDeltaPerDayNumber (⟨-1 / 2, 7⟩ : Settings).goalKgPerWeek)).sub
                (.fin lastEntry.calories) = .fin t →
            t = lastPoint.tdee + ((⟨-1 / 2, 7⟩ : Settings).goalKgPerWeek / 7) * 7700
                - lastEntry.calories
            ∧ ∃ n : Int, (n : ℚ) - 1 / 2 ≤ t ∧ t < (n : ℚ) + 1 / 2
              ∧ view.calChange = (if 0 < n then "+" else "") ++ numberToString (n : ℚ)) :=
  ⟨by simp,
   (c6_summary_rounded_when_finite zoneUTC
      [⟨"2024-01-01", 80, 2000⟩, ⟨"2024-01-08", 79, 2001⟩] ⟨-1 / 2, 7⟩).2 (by simp)⟩

/-! ## Upsert by date (C7) -/

theorem upsert_nil (e : RawEntry) : upsert [] e = [e] := rfl

theorem upsert_cons (x : RawEntry) (xs : List RawEntry) (e : RawEntry) :
    upsert (x :: xs) e = if x.date = e.date then e :: xs else x :: upsert xs e := by
  unfold upsert
  by_cases h : x.date = e.date
  · simp [findIndex, h]
  · simp only [findIndex, h, decide_False, Bool.false_eq_true, ↓reduceIte]
    cases findIndex (fun x => decide (x.date = e.date)) xs <;> simp

theorem upsert_of_not_mem (entries : List RawEntry) (e : RawEntry)
    (h : e.date ∉ entries.map RawEntry.date) : upsert entries e = entries ++ [e] := by
  induction entries with
  | nil => rfl
  | cons x xs ih =>
    rw [List.map_cons, List.mem_cons, not_or] at h
    rw [upsert_cons, if_neg (fun hx => h.1 hx.symm), ih h.2]
    rfl

theorem upsert_length_of_mem (entries : List RawEntry) (e : RawEntry)
    (h : e.date ∈ entries.map RawEntry.date) :
    (upsert entries e).length = entries.length := by
  induction entries with
  | nil => simp at h
  | cons x xs ih =>
    rw [upsert_cons]
    by_cases hx : x.date = e.date
    · simp [hx]
    · rw [if_neg hx]
      rw [List.map_cons, List.mem_cons] at h
      rcases h with h | h
      · exact absurd h.symm hx
      · simp [ih h]

theorem upsert_getElem?_of_ne (entries : List RawEntry) (e : RawEntry) (i : Nat)
    (x : RawEntry) (hi : entries[i]? = some x) (hx : x.date ≠ e.date) :
    (upsert entries e)[i]? = some x := by
  induction entries generalizing i with
  | nil => simp at hi
  | cons y ys ih =>
    rw [upsert_cons]
    by_cases hy : y.date = e.date
    · rw [if_pos hy]
      cases i with
      | zero =>
        simp only [List.getElem?_cons_zero, Option.some.injEq] at hi
        subst hi
        exact absurd hy hx
      | succ j => simpa using hi
    · rw [if_neg hy]
      cases i with
      | zero => simpa using hi
      | succ j =>
        simp only [List.getElem?_cons_succ] at hi ⊢
        exact ih j hi

theorem mem_upsert (entries : List RawEntry) (e : RawEntry) : e ∈ upsert entries e := by
  induction entries with
  | nil => simp [upsert_nil]
  | cons x xs ih =>
    rw [upsert_cons]
    split
    · simp
    · exact List.mem_cons_of_mem _ ih

theorem upsert_dates (entries : List RawEntry) (e : RawEntry) :
    ∀ d, d ∈ (upsert entries e).map RawEntry.date ↔
      d ∈ entries.map RawEntry.date ∨ d = e.date := by
  induction entries with
  | nil => intro d; simp [upsert_nil]
  | cons x xs ih =>
    intro d
    rw [upsert_cons]
    by_cases hx : x.date = e.date
    · rw [if_pos hx]
      simp only [List.map_cons, List.mem_cons, hx]
      tauto
    · rw [if_neg hx]
      simp only [List.map_cons, List.mem_cons, ih d]
      tauto

theorem upsert_nodup (entries : List RawEntry) (e : RawEntry)
    (h : (entries.map RawEntry.date).Nodup) :
    ((upsert entries e).map RawEntry.date).Nodup := by
  induction entries with
  | nil => simp [upsert_nil]
  | cons x xs ih =>
    rw [List.map_cons, List.nodup_cons] at h
    rw [upsert_cons]
    by_cases hx : x.date = e.date
    · rw [if_pos hx, List.map_cons, List.nodup_cons, ← hx]
      exact h
    · rw [if_neg hx, List.map_cons, List.nodup_cons]
      refine ⟨?_, ih h.2⟩
      intro hmem
      rcases (upsert_dates xs e x.date).mp hmem with h1 | h1
      · exact h.1 h1
      · exact hx h1

theorem upsert_unique (entries : List RawEntry) (e : RawEntry)
    (h : (entries.map RawEntry.date).Nodup) :
    ∀ x ∈ upsert entries e, x.date = e.date → x = e := by
  induction entries with
  | nil => intro x hx _; simpa [upsert_nil] using hx
  | cons y ys ih =>
    rw [List.map_cons, List.nodup_cons] at h
    intro x hx hd
    rw [upsert_cons] at hx
    by_cases hy : y.date = e.date
    · rw [if_pos hy, List.mem_cons] at hx
      rcases hx with hx | hx
      · exact hx
      · exfalso
        apply h.1
        rw [hy, ← hd]
        exact List.mem_map_of_mem _ hx
    · rw [if_neg hy, List.mem_cons] at hx
      rcases hx with hx | hx
      · subst hx; exact absurd hd hy
      · exact ih h.2 x hx hd

theorem upsert_idem (entries : List RawEntry) (e : RawEntry) :
    upsert (upsert entries e) e = upsert entries e := by
  induction entries with
  | nil => simp [upsert_nil, upsert_cons]
  | cons x xs ih =>
    rw [upsert_cons]
    by_cases hx : x.date = e.date
    · rw [if_pos hx, upsert_cons, if_pos rfl]
    · rw [if_neg hx, upsert_cons, if_neg hx, ih]

/-- C7: for a collection with pairwise distinct dates and an entry `e`, the upsert of the
three write paths yields a collection with pairwise distinct dates that contains `e` as its
only entry dated `e.date`; when the date was present the size is unchanged and every entry
of another date stays at its index, otherwise `e` is appended and the size grows by one;
upserting `e` a second time changes nothing. -/
theorem c7_upsert_by_date (entries : List RawEntry) (e : RawEntry)
    (h : (entries.map RawEntry.date).Nodup) :
    ((upsert entries e).map RawEntry.date).Nodup
    ∧ e ∈ upsert entries e
    ∧ (∀ x ∈ upsert entries e, x.date = e.date → x = e)
    ∧ (e.date ∈ entries.map RawEntry.date →
        (upsert entries e).length = entries.length)
    ∧ (∀ (i : Nat) (x : RawEntry), entries[i]? = some x → x.date ≠ e.date →
        (upsert entries e)[i]? = some x)
    ∧ (e.date ∉ entries.map RawEntry.date →
        upsert entries e = entries ++ [e] ∧ (upsert entries e).length = entries.length + 1)
    ∧ upsert (upsert entries e) e = upsert entries e :=
  ⟨upsert_nodup entries e h, mem_upsert entries e, upsert_unique entries e h,
   upsert_length_of_mem entries e, upsert_getElem?_of_ne entries e,
   fun hn => ⟨upsert_of_not_mem entries e hn, by rw [upsert_of_not_mem entries e hn]; simp⟩,
   upsert_idem entries e⟩

/-- C7 at a two-entry store: replacing the entry of 2024-01-02 keeps the size and leaves the
entry of 2024-01-01 in place. -/
theorem c7_upsert_by_date_witness :
    (([⟨.str "2024-01-01", .num 80, .num 2000⟩, ⟨.str "2024-01-02", .num 79, .num 2100⟩] :
        List RawEntry).map RawEntry.date).Nodup
    ∧ upsert [⟨.str "2024-01-01", .num 80, .num 2000⟩, ⟨.str "2024-01-02", .num 79, .num 2100⟩]
        ⟨.str "2024-01-02", .num 78, .num 1900⟩
      = [⟨.str "2024-01-01", .num 80, .num 2000⟩, ⟨.str "2024-01-02", .num 78, .num 1900⟩]
    ∧ (upsert
        (upsert [⟨.str "2024-01-01", .num 80, .num 2000⟩,
            ⟨.str "2024-01-02", .num 79, .num 2100⟩] ⟨.str "2024-01-02", .num 78, .num 1900⟩)
        ⟨.str "2024-01-02", .num 78, .num 1900⟩
      = upsert [⟨.str "2024-01-01", .num 80, .num 2000⟩,
            ⟨.str "2024-01-02", .num 79, .num 2100⟩] ⟨.str "2024-01-02", .num 78, .num 1900⟩) :=
  ⟨by decide, by simp [upsert_cons],
   (c7_upsert_by_date
      [⟨.str "2024-01-01", .num 80, .num 2000⟩, ⟨.str "2024-01-02", .num 79, .num 2100⟩]
      ⟨.str "2024-01-02", .num 78, .num 1900⟩ (by decide)).2.2.2.2.2.2⟩

/-! ## CSV parsing (C8) -/

/-- The example of the specification: a well-formed row and a row whose weight field is not
numeric give exactly one entry. -/
theorem parseCSV_malformed_row_skipped :
    parseCSV "date,weight,calories\n2024-01-01,80,2000\n2024-01-02,abc,2000"
      = some [⟨"2024-01-01", 80, 2000⟩] := by
  have hl : splitOn '\n' (trim
      ("date,weight,calories\n2024-01-01,80,2000\n2024-01-02,abc,2000".data.filter
        (fun c => c ≠ '\r')))
      = ["date,weight,calories".data, "2024-01-01,80,2000".data,
         "2024-01-02,abc,2000".data] := by decide
  have hh : (splitOn ',' "date,weight,calories".data).map (fun h => toLowerCase (trim h))
      = ["date".data, "weight".data, "calories".data] := by decide
  have r1 : (splitOn ',' "2024-01-01,80,2000".data).map trim
      = ["2024-01-01".data, "80".data, "2000".data] := by decide
  have r2 : (splitOn ',' "2024-01-02,abc,2000".data).map trim
      = ["2024-01-02".data, "abc".data, "2000".data] := by decide
  have m1 : matchDate "2024-01-01".data = some "2024-01-01".data := by decide
  have m2 : matchDate "2024-01-02".data = some "2024-01-02".data := by decide
  have p1 := parseFloatChars_of_decimal (stripNonNumeric "80".data) ⟨false, 80, 0⟩
    (by decide) (by decide)
  have p2 := parseFloatChars_of_decimal (stripNonNumeric "2000".data) ⟨false, 2000, 0⟩
    (by decide) (by decide)
  have p3 : parseFloatChars (stripNonNumeric "abc".data) = none := by decide
  unfold parseCSV
  rw [hl]
  simp only [hh]
  simp [findIndex, parseRows, r1, r2, m1, m2, p1, p2, p3, Decimal.toRat, pow10]

/-- C8, at the failing input: with the header `date,note,weight,calories` the calories
column has index 3; the data line `2024-01-02,80,2000` has three columns, passes the guard
`cols.length < 3`, and `cols[3].replace` throws: `parseCSV` fails and the whole batch is
lost (the import handler stores nothing), although the other line,
`2024-01-01,ok,80,2000`, is well formed and parses on its own. -/
theorem c8_short_row_aborts_batch :
    parseCSV "date,note,weight,calories\n2024-01-01,ok,80,2000\n2024-01-02,80,2000" = none
    ∧ importCSV [] "date,note,weight,calories\n2024-01-01,ok,80,2000\n2024-01-02,80,2000"
        = none
    ∧ parseCSV "date,note,weight,calories\n2024-01-01,ok,80,2000"
        = some [⟨"2024-01-01", 80, 2000⟩] := by
  have h : parseCSV
      "date,note,weight,calories\n2024-01-01,ok,80,2000\n2024-01-02,80,2000" = none := by
    decide
  refine ⟨h, by simp [importCSV, h], ?_⟩
  have hl : splitOn '\n' (trim
      ("date,note,weight,calories\n2024-01-01,ok,80,2000".data.filter (fun c => c ≠ '\r')))
      = ["date,note,weight,calories".data, "2024-01-01,ok,80,2000".data] := by decide
  have hh : (splitOn ',' "date,note,weight,calories".data).map
      (fun h => toLowerCase (trim h))
      = ["date".data, "note".data, "weight".data, "calories".data] := by decide
  have r1 : (splitOn ',' "2024-01-01,ok,80,2000".data).map trim
      = ["2024-01-01".data, "ok".data, "80".data, "2000".data] := by decide
  have m1 : matchDate "2024-01-01".data = some "2024-01-01".data := by decide
  have p1 := parseFloatChars_of_decimal (stripNonNumeric "80".data) ⟨false, 80, 0⟩
    (by decide) (by decide)
  have p2 := parseFloatChars_of_decimal (stripNonNumeric "2000".data) ⟨false, 2000, 0⟩
    (by decide) (by decide)
  unfold parseCSV
  rw [hl]
  simp only [hh]
  simp [findIndex, parseRows, r1, m1, p1, p2, Decimal.toRat, pow10]

/-! ## CSV round trip (C9) -/

/-- C9, at the failing input: the entry (2024-01-01, 80, 1e21) is exported with its calories
written `1e+21`; `parseCSV` strips the `e` and the `+` before parsing and reads the
calories as 121, so the export does not parse back to the collection, and importing it
into an empty store gives an entry with calories 121. -/
theorem c9_exponent_notation_not_read_back :
    exportCSV [⟨"2024-01-01", 80, 1000000000000000000000⟩]
      = "date,weight_kg,calories_kcal\n2024-01-01,80,1e+21"
    ∧ parseCSV (exportCSV [⟨"2024-01-01", 80, 1000000000000000000000⟩])
      = some [⟨"2024-01-01", 80, 121⟩]
    ∧ importCSV [] (exportCSV [⟨"2024-01-01", 80, 1000000000000000000000⟩])
      = some [Entry.toRaw ⟨"2024-01-01", 80, 121⟩]
    ∧ (⟨"2024-01-01", 80, 121⟩ : Entry) ≠ ⟨"2024-01-01", 80, 1000000000000000000000⟩ := by
  have n1 : numberToString (80 : ℚ) = "80" := by
    have := numberToString_ofNat_pos 80 (by norm_num)
    simp only [Nat.cast_ofNat] at this
    rw [this]; decide
  have n2 : numberToString (1000000000000000000000 : ℚ) = "1e+21" := by
    have := numberToString_ofNat_pos 1000000000000000000000 (by norm_num)
    simp only [Nat.cast_ofNat] at this
    rw [this]; decide
  have hx : exportCSV [⟨"2024-01-01", 80, 1000000000000000000000⟩]
      = "date,weight_kg,calories_kcal\n2024-01-01,80,1e+21" := by
    simp only [exportCSV, sortEntries, List.insertionSort, List.orderedInsert, List.map, n1, n2]
    decide
  have hl : splitOn '\n' (trim
      ("date,weight_kg,calories_kcal\n2024-01-01,80,1e+21".data.filter (fun c => c ≠ '\r')))
      = ["date,weight_kg,calories_kcal".data, "2024-01-01,80,1e+21".data] := by decide
  have hh : (splitOn ',' "date,weight_kg,calories_kcal".data).map
      (fun h => toLowerCase (trim h))
      = ["date".data, "weight_kg".data, "calories_kcal".data] := by decide
  have r1 : (splitOn ',' "2024-01-01,80,1e+21".data).map trim
      = ["2024-01-01".data, "80".data, "1e+21".data] := by decide
  have m1 : matchDate "2024-01-01".data = some "2024-01-01".data := by decide
  have p1 := parseFloatChars_of_decimal (stripNonNumeric "80".data) ⟨false, 80, 0⟩
    (by decide) (by decide)
  have p2 := parseFloatChars_of_decimal (stripNonNumeric "1e+21".data) ⟨false, 121, 0⟩
    (by decide) (by decide)
  have hp : parseCSV "date,weight_kg,calories_kcal\n2024-01-01,80,1e+21"
      = some [⟨"2024-01-01", 80, 121⟩] := by
    unfold parseCSV
    rw [hl]
    simp only [hh]
    simp [findIndex, parseRows, r1, m1, p1, p2, Decimal.toRat, pow10]
  refine ⟨hx, by rw [hx, hp], ?_, ?_⟩
  · rw [hx]
    simp [importCSV, hp, upsertAll, upsert, findIndex]
  · intro h
    have := congrArg Entry.calories h
    norm_num at this

/-! ## Validity of stored entries (C10) -/

theorem mem_upsert_cases (entries : List RawEntry) (e r : RawEntry) (h : r ∈ upsert entries e) :
    r ∈ entries ∨ r = e := by
  induction entries with
  | nil => right; simpa [upsert_nil] using h
  | cons x xs ih =>
    rw [upsert_cons] at h
    split at h
    · rcases List.mem_cons.mp h with h1 | h1
      · exact Or.inr h1
      · exact Or.inl (List.mem_cons_of_mem _ h1)
    · rcases List.mem_cons.mp h with h1 | h1
      · exact Or.inl (by rw [h1]; exact List.mem_cons_self _ _)
      · rcases ih h1 with h2 | h2
        · exact Or.inl (List.mem_cons_of_mem _ h2)
        · exact Or.inr h2

theorem mem_upsertAll_cases (rows : List Entry) (entries : List RawEntry) (r : RawEntry)
    (h : r ∈ upsertAll entries rows) : r ∈ entries ∨ ∃ e ∈ rows, r = e.toRaw := by
  induction rows generalizing entries with
  | nil => left; simpa [upsertAll] using h
  | cons it rest ih =>
    have h' : r ∈ upsertAll (upsert entries it.toRaw) rest := by
      simpa [upsertAll] using h
    rcases ih _ h' with h1 | ⟨e, he, h1⟩
    · rcases mem_upsert_cases entries _ r h1 with h2 | h2
      · exact Or.inl h2
      · exact Or.inr ⟨it, List.mem_cons_self _ _, h2⟩
    · exact Or.inr ⟨e, List.mem_cons_of_mem _ he, h1⟩

theorem isoShapePrefix_shaped (cs m : List Char) (h : isoShapePrefix cs = some m) :
    isoShapePrefix m = some m := by
  unfold isoShapePrefix at h
  split at h
  · split at h
    · rename_i hc
      simp only [Option.some.injEq] at h
      subst h
      simp only [isoShapePrefix, hc, and_self, ↓reduceIte]
    · simp at h
  · simp at h

theorem matchDate_shaped (cs m : List Char) (h : matchDate cs = some m) :
    isoShapePrefix m = some m := by
  induction cs with
  | nil => simp [matchDate] at h
  | cons c cs ih =>
    unfold matchDate at h
    split at h
    · rename_i m' hm
      simp only [Option.some.injEq] at h
      subst h
      exact isoShapePrefix_shaped _ _ hm
    · exact ih h

theorem parseRows_shaped (iD iW iC : Nat) (lines : List (List Char)) (out : List Entry)
    (h : parseRows iD iW iC lines = some out) : ∀ e ∈ out, isoShaped e.date := by
  induction lines generalizing out with
  | nil =>
    simp only [parseRows, Option.some.injEq] at h
    subst h
    simp
  | cons line rest ih =>
    unfold parseRows at h
    simp only at h
    split at h
    · exact ih out h
    · split at h
      · split at h
        · rename_i date weight calories hd hw hc
          cases hr : parseRows iD iW iC rest with
          | none => simp [hr] at h
          | some out' =>
            simp only [hr, Option.map_some', Option.some.injEq] at h
            subst h
            intro e he
            rcases List.mem_cons.mp he with h1 | h1
            · subst h1
              exact matchDate_shaped _ _ hd
            · exact ih out' hr e h1
        · exact ih out h
      · simp at h

theorem parseCSV_shaped (text : String) (rows : List Entry) (h : parseCSV text = some rows) :
    ∀ e ∈ rows, isoShaped e.date := by
  unfold parseCSV at h
  simp only at h
  split at h
  · simp only [Option.some.injEq] at h; subst h; simp
  · split at h
    · exact parseRows_shaped _ _ _ _ _ h
    · simp only [Option.some.injEq] at h; subst h; simp

theorem isoShaped_ne_empty (s : String) (h : isoShaped s) : s ≠ "" := by
  intro h0
  subst h0
  simp [isoShaped, isoShapePrefix] at h

/-- C10, as stated, fails: the CSV import stores the date `2024-13-45`, which has the shape
`YYYY-MM-DD` and is no calendar date, and the JSON import stores an object whose date is
the string `soon`, whose weight is `null` and whose calories are `true` (the conversion of
strings to numbers plays no part at these values). -/
theorem c10_invalid_entries_are_stored :
    importCSV [] "date,weight,calories\n2024-13-45,80,2000"
      = some [⟨.str "2024-13-45", .num 80, .num 2000⟩]
    ∧ ¬ validDate "2024-13-45"
    ∧ importJSONEntries (fun _ => none) [] [some ⟨.str "soon", .null, .bool true⟩]
      = [⟨.str "soon", .null, .bool true⟩]
    ∧ ¬ validDate "soon" := by
  have hl : splitOn '\n' (trim
      ("date,weight,calories\n2024-13-45,80,2000".data.filter (fun c => c ≠ '\r')))
      = ["date,weight,calories".data, "2024-13-45,80,2000".data] := by decide
  have hh : (splitOn ',' "date,weight,calories".data).map (fun h => toLowerCase (trim h))
      = ["date".data, "weight".data, "calories".data] := by decide
  have r1 : (splitOn ',' "2024-13-45,80,2000".data).map trim
      = ["2024-13-45".data, "80".data, "2000".data] := by decide
  have m1 : matchDate "2024-13-45".data = some "2024-13-45".data := by decide
  have p1 := parseFloatChars_of_decimal (stripNonNumeric "80".data) ⟨false, 80, 0⟩
    (by decide) (by decide)
  have p2 := parseFloatChars_of_decimal (stripNonNumeric "2000".data) ⟨false, 2000, 0⟩
    (by decide) (by decide)
  have hp : parseCSV "date,weight,calories\n2024-13-45,80,2000"
      = some [⟨"2024-13-45", 80, 2000⟩] := by
    unfold parseCSV
    rw [hl]
    simp only [hh]
    simp [findIndex, parseRows, r1, m1, p1, p2, Decimal.toRat, pow10]
  refine ⟨?_, by decide, ?_, by decide⟩
  · simp [importCSV, hp, upsertAll, upsert, findIndex, Entry.toRaw]
  · simp [importJSONEntries, truthy, isFiniteJS, upsert, findIndex]

/-! ## Finite numbers on the form and CSV paths (C10) -/

theorem Decimal.abs_toRat (d : Decimal) : |d.toRat| = (d.mant : ℚ) * pow10 d.exp := by
  have hp : 0 < pow10 d.exp := by
    unfold pow10
    split <;> positivity
  unfold Decimal.toRat
  rw [abs_mul, abs_mul, abs_of_pos hp, Nat.abs_cast]
  split <;> simp

theorem Decimal.lt_of_inRange (d : Decimal) (h : d.inRange = true) :
    |d.toRat| < (overflowBound : ℚ) := by
  rw [Decimal.abs_toRat]
  unfold Decimal.inRange at h
  unfold pow10
  split at h
  · rename_i he
    rw [if_pos he]
    have h1 : d.mant * 10 ^ d.exp.toNat < overflowBound := of_decide_eq_true h
    exact_mod_cast h1
  · rename_i he
    rw [if_neg he]
    have h1 : d.mant < overflowBound * 10 ^ (-d.exp).toNat := of_decide_eq_true h
    have h2 : (d.mant : ℚ) < (overflowBound : ℚ) * 10 ^ (-d.exp).toNat := by exact_mod_cast h1
    have h3 : (0 : ℚ) < 10 ^ (-d.exp).toNat := by positivity
    rw [mul_one_div, div_lt_iff₀ h3]
    exact h2

theorem parseFloatNumber_lt (s : List Char) (q : ℚ) (h : parseFloatNumber s = .fin q) :
    |q| < (overflowBound : ℚ) := by
  unfold parseFloatNumber at h
  split at h
  · rename_i d hd
    split at h
    · rename_i hr
      simp only [JSNumber.fin.injEq] at h
      rw [← h]
      exact Decimal.lt_of_inRange d hr
    · split at h <;> simp at h
  · split at h
    · split at h <;> simp at h
    · simp at h

theorem parseFloatChars_lt (s : List Char) (q : ℚ) (h : parseFloatChars s = some q) :
    |q| < (overflowBound : ℚ) := by
  unfold parseFloatChars at h
  split at h
  · rename_i q' hq
    simp only [Option.some.injEq] at h
    rw [← h]
    exact parseFloatNumber_lt s q' hq
  · simp at h

theorem parseRows_lt (iD iW iC : Nat) (lines : List (List Char)) (out : List Entry)
    (h : parseRows iD iW iC lines = some out) :
    ∀ e ∈ out, |e.weight| < (overflowBound : ℚ) ∧ |e.calories| < (overflowBound : ℚ) := by
  induction lines generalizing out with
  | nil =>
    simp only [parseRows, Option.some.injEq] at h
    subst h
    simp
  | cons line rest ih =>
    unfold parseRows at h
    simp only at h
    split at h
    · exact ih out h
    · split at h
      · split at h
        · rename_i date weight calories hd hw hc
          cases hr : parseRows iD iW iC rest with
          | none => simp [hr] at h
          | some out' =>
            simp only [hr, Option.map_some', Option.some.injEq] at h
            subst h
            intro e he
            rcases List.mem_cons.mp he with h1 | h1
            · subst h1
              exact ⟨parseFloatChars_lt _ _ hw, parseFloatChars_lt _ _ hc⟩
            · exact ih out' hr e h1
        · exact ih out h
      · simp at h

theorem parseCSV_lt (text : String) (rows : List Entry) (h : parseCSV text = some rows) :
    ∀ e ∈ rows, |e.weight| < (overflowBound : ℚ) ∧ |e.calories| < (overflowBound : ℚ) := by
  unfold parseCSV at h
  simp only at h
  split at h
  · simp only [Option.some.injEq] at h; subst h; simp
  · split at h
    · exact parseRows_lt _ _ _ _ _ h
    · simp only [Option.some.injEq] at h; subst h; simp

theorem wellFormed_toRaw (e : Entry) (hd : e.date ≠ "")
    (hw : |e.weight| < (overflowBound : ℚ)) (hc : |e.calories| < (overflowBound : ℚ)) :
    (Entry.toRaw e).wellFormed :=
  ⟨⟨e.date, rfl, hd⟩, ⟨e.weight, rfl, hw⟩, ⟨e.calories, rfl, hc⟩⟩

/-- C10, amended: from a store whose entries all have a non-empty date string and a weight
and calories that are finite numbers, the entry form and the CSV import lead to such a
store.  The form stores `{date, weight, calories}` with the two finite numbers that
`parseFloat` read, and leaves the store as it is when the date is empty or one of the two
is NaN or ±Infinity; an entry added by the CSV import has a date of the shape
`YYYY-MM-DD`. -/
theorem c10_form_and_csv_store_finite_numbers (entries : List RawEntry)
    (h : ∀ r ∈ entries, r.wellFormed) :
    (∀ date weight calories : String,
        (∀ r ∈ submitEntry entries date weight calories, r.wellFormed)
        ∧ ((date = "" ∨ (parseFloatNumber weight.data).isFinite = false
              ∨ (parseFloatNumber calories.data).isFinite = false) →
            submitEntry entries date weight calories = entries)
        ∧ (∀ r ∈ submitEntry entries date weight calories, r ∉ entries →
            ∃ w c : ℚ, parseFloatNumber weight.data = .fin w
              ∧ parseFloatNumber calories.data = .fin c
              ∧ r = ⟨.str date, .num w, .num c⟩))
    ∧ (∀ (text : String) (out : List RawEntry), importCSV entries text = some out →
        ∀ r ∈ out, r.wellFormed ∧
          (r ∉ entries → ∃ (d : String) (w c : ℚ),
            r = ⟨.str d, .num w, .num c⟩ ∧ isoShaped d)) := by
  have hform : ∀ date weight calories : String,
      ∀ r ∈ submitEntry entries date weight calories, r ∈ entries ∨
        (date ≠ "" ∧ ∃ w c : ℚ, parseFloatNumber weight.data = .fin w
              ∧ parseFloatNumber calories.data = .fin c
              ∧ r = ⟨.str date, .num w, .num c⟩) := by
    intro date weight calories r hr
    unfold submitEntry at hr
    simp only at hr
    split at hr
    · exact Or.inl hr
    · rename_i hg
      simp only [not_or, Bool.not_eq_false] at hg
      obtain ⟨hd, hw, hc⟩ := hg
      obtain ⟨w, hw'⟩ := (JSNumber.isFinite_iff _).mp hw
      obtain ⟨c, hc'⟩ := (JSNumber.isFinite_iff _).mp hc
      rcases mem_upsert_cases entries _ r hr with h1 | h1
      · exact Or.inl h1
      · refine Or.inr ⟨hd, w, c, hw', hc', ?_⟩
        rw [h1, hw', hc']
        rfl
  refine ⟨fun date weight calories => ⟨?_, ?_, ?_⟩, ?_⟩
  · intro r hr
    rcases hform date weight calories r hr with h1 | ⟨hd, w, c, hw, hc, hr'⟩
    · exact h r h1
    · subst hr'
      exact ⟨⟨date, rfl, hd⟩, ⟨w, rfl, parseFloatNumber_lt _ _ hw⟩,
        ⟨c, rfl, parseFloatNumber_lt _ _ hc⟩⟩
  · intro hg
    unfold submitEntry
    simp only
    rw [if_pos hg]
  · intro r hr hn
    rcases hform date weight calories r hr with h1 | ⟨hd, w, c, hw, hc, hr'⟩
    · exact absurd h1 hn
    · exact ⟨w, c, hw, hc, hr'⟩
  · intro text out hout r hr
    unfold importCSV at hout
    split at hout
    · rename_i rows hrows
      have hshape := parseCSV_shaped text rows hrows
      have hlt := parseCSV_lt text rows hrows
      split at hout
      · simp only [Option.some.injEq] at hout
        subst hout
        exact ⟨h r hr, fun hn => absurd hr hn⟩
      · simp only [Option.some.injEq] at hout
        subst hout
        rcases mem_upsertAll_cases rows entries r hr with h1 | ⟨e, he, h1⟩
        · exact ⟨h r h1, fun hn => absurd h1 hn⟩
        · subst h1
          exact ⟨wellFormed_toRaw e (isoShaped_ne_empty _ (hshape e he)) (hlt e he).1
              (hlt e he).2,
            fun _ => ⟨e.date, e.weight, e.calories, rfl, hshape e he⟩⟩
    · simp at hout

set_option exponentiation.threshold 1000 in
/-- What `parseFloat` returns on five texts: two finite numbers, NaN, and ±Infinity from an
overflow and from the literal. -/
theorem parseFloatNumber_examples :
    parseFloatNumber "79.5".data = .fin (159 / 2)
    ∧ parseFloatNumber "2100".data = .fin 2100
    ∧ parseFloatNumber "abc".data = .nan
    ∧ parseFloatNumber "1e999".data = .posInf
    ∧ parseFloatNumber "-Infinity".data = .negInf := by
  refine ⟨?_, ?_, by decide, ?_, by decide⟩
  · rw [parseFloatNumber_of_decimal "79.5".data ⟨false, 795, -1⟩ (by decide) (by decide)]
    norm_num [Decimal.toRat, pow10]
  · rw [parseFloatNumber_of_decimal "2100".data ⟨false, 2100, 0⟩ (by decide) (by decide)]
    norm_num [Decimal.toRat, pow10]
  · have hd : parseDecimal "1e999".data = some ⟨false, 1, 999⟩ := by decide
    have hr : Decimal.inRange ⟨false, 1, 999⟩ = false := by decide
    simp [parseFloatNumber, hd, hr]

/-- The entry form on a one-entry store: a new date with two finite numbers is appended, and
the store is left as it is when the weight is NaN, when the calories overflow, when the
weight is the literal `-Infinity`, and when the date is empty. -/
theorem submitEntry_examples :
    submitEntry [⟨.str "2024-01-01", .num 80, .num 2000⟩] "2024-01-02" "79.5" "2100"
      = [⟨.str "2024-01-01", .num 80, .num 2000⟩, ⟨.str "2024-01-02", .num (159 / 2), .num 2100⟩]
    ∧ submitEntry [⟨.str "2024-01-01", .num 80, .num 2000⟩] "2024-01-02" "abc" "2100"
      = [⟨.str "2024-01-01", .num 80, .num 2000⟩]
    ∧ submitEntry [⟨.str "2024-01-01", .num 80, .num 2000⟩] "2024-01-02" "79.5" "1e999"
      = [⟨.str "2024-01-01", .num 80, .num 2000⟩]
    ∧ submitEntry [⟨.str "2024-01-01", .num 80, .num 2000⟩] "2024-01-02" "-Infinity" "2100"
      = [⟨.str "2024-01-01", .num 80, .num 2000⟩]
    ∧ submitEntry [⟨.str "2024-01-01", .num 80, .num 2000⟩] "" "79.5" "2100"
      = [⟨.str "2024-01-01", .num 80, .num 2000⟩] := by
  obtain ⟨p1, p2, p3, p4, p5⟩ := parseFloatNumber_examples
  have hne : ¬ ("2024-01-02" = "") := by decide
  have hd : (JSPrim.str "2024-01-01" = JSPrim.str "2024-01-02") = False := by
    simp
  refine ⟨?_, ?_, ?_, ?_, ?_⟩
  · simp [submitEntry, p1, p2, JSNumber.isFinite, JSNumber.toValue, upsert, findIndex]
  · simp [submitEntry, p3, JSNumber.isFinite]
  · simp [submitEntry, p4, JSNumber.isFinite]
  · simp [submitEntry, p5, JSNumber.isFinite]
  · simp [submitEntry]

theorem wellFormed_example :
    ∀ r ∈ ([⟨.str "2024-01-01", .num 80, .num 2000⟩] : List RawEntry), r.wellFormed := by
  intro r hr
  simp only [List.mem_singleton] at hr
  subst hr
  refine ⟨⟨"2024-01-01", rfl, by decide⟩, ⟨80, rfl, ?_⟩, ⟨2000, rfl, ?_⟩⟩
  · rw [abs_of_nonneg (by norm_num)]
    norm_num [overflowBound]
  · rw [abs_of_nonneg (by norm_num)]
    norm_num [overflowBound]

set_option maxRecDepth 100000 in
/-- A numeral of 310 digits is beyond the range of finite Numbers: `parseFloat` returns
Infinity, and `parseCSV` skips a row with such a weight. -/
theorem parseCSV_overflow_row_skipped :
    parseFloatNumber (List.replicate 310 '9') = .posInf
    ∧ parseCSV (String.mk ("date,weight,calories\n2024-01-02,".data ++ List.replicate 310 '9'
        ++ ",2100\n2024-01-03,79,2000".data)) = some [⟨"2024-01-03", 79, 2000⟩] := by
  have p0 : parseFloatNumber (List.replicate 310 '9') = .posInf := by decide
  have hl : splitOn '\n' (trim
      ((String.mk ("date,weight,calories\n2024-01-02,".data ++ List.replicate 310 '9'
        ++ ",2100\n2024-01-03,79,2000".data)).data.filter (fun c => c ≠ '\r')))
      = ["date,weight,calories".data,
         "2024-01-02,".data ++ List.replicate 310 '9' ++ ",2100".data,
         "2024-01-03,79,2000".data] := by decide
  have hh : (splitOn ',' "date,weight,calories".data).map (fun h => toLowerCase (trim h))
      = ["date".data, "weight".data, "calories".data] := by decide
  have r1 : (splitOn ','
      ("2024-01-02,".data ++ List.replicate 310 '9' ++ ",2100".data)).map trim
      = ["2024-01-02".data, List.replicate 310 '9', "2100".data] := by decide
  have r2 : (splitOn ',' "2024-01-03,79,2000".data).map trim
      = ["2024-01-03".data, "79".data, "2000".data] := by decide
  have m1 : matchDate "2024-01-02".data = some "2024-01-02".data := by decide
  have m2 : matchDate "2024-01-03".data = some "2024-01-03".data := by decide
  have p1 := parseFloatChars_of_decimal (stripNonNumeric "79".data) ⟨false, 79, 0⟩
    (by decide) (by decide)
  have p2 := parseFloatChars_of_decimal (stripNonNumeric "2000".data) ⟨false, 2000, 0⟩
    (by decide) (by decide)
  have p3 : parseFloatChars (stripNonNumeric (List.replicate 310 '9')) = none := by decide
  have p4 := parseFloatChars_of_decimal (stripNonNumeric "2100".data) ⟨false, 2100, 0⟩
    (by decide) (by decide)
  refine ⟨p0, ?_⟩
  unfold parseCSV
  rw [hl]
  simp only [hh]
  generalize "2024-01-02,".data ++ List.replicate 310 '9' ++ ",2100".data = row at r1 ⊢
  generalize List.replicate 310 '9' = big at r1 p3
  simp [findIndex, parseRows, r1, r2, m1, m2, p1, p2, p3, p4, Decimal.toRat, pow10]

/-- C10 amended, at a one-entry store: the store is well formed, and it is so after the form
is submitted with the date 2024-01-02, the weight `79.5` and the calories `2100`, and after
the import of a CSV file of one row. -/
theorem c10_form_and_csv_store_finite_numbers_witness :
    (∀ r ∈ ([⟨.str "2024-01-01", .num 80, .num 2000⟩] : List RawEntry), r.wellFormed)
    ∧ (∀ r ∈ submitEntry [⟨.str "2024-01-01", .num 80, .num 2000⟩] "2024-01-02" "79.5" "2100",
        r.wellFormed)
    ∧ (∀ out : List RawEntry,
        importCSV [⟨.str "2024-01-01", .num 80, .num 2000⟩]
            "date,weight,calories\n2024-01-02,79.5,2100" = some out →
          ∀ r ∈ out, r.wellFormed ∧
            (r ∉ ([⟨.str "2024-01-01", .num 80, .num 2000⟩] : List RawEntry) →
              ∃ (d : String) (w c : ℚ), r = ⟨.str d, .num w, .num c⟩ ∧ isoShaped d)) :=
  ⟨wellFormed_example,
   ((c10_form_and_csv_store_finite_numbers [⟨.str "2024-01-01", .num 80, .num 2000⟩]
      wellFormed_example).1 "2024-01-02" "79.5" "2100").1,
   (c10_form_and_csv_store_finite_numbers [⟨.str "2024-01-01", .num 80, .num 2000⟩]
      wellFormed_example).2 "date,weight,calories\n2024-01-02,79.5,2100"⟩

/-! ## The window on a host without offset changes -/

theorem dayNumber_bounds {s : String} {n : Int} (h : dayNumber s = some n) :
    -719528 ≤ n ∧ n ≤ 3000000 := by
  obtain ⟨y, m, d, hp, h1, h2, h3, h4, rfl⟩ := dayNumber_some h
  obtain ⟨c1, c2, c3, c4, c5, c6, c7, c8, n1, n2, n3, n4, n5, n6, n7, n8, _, g1, g2, g3, g4,
    _, _, _, _, hy, _, _⟩ := parseYMD_some hp
  have b1 := digitVal_some g1; have b2 := digitVal_some g2
  have b3 := digitVal_some g3; have b4 := digitVal_some g4
  have hdoy := dayOfYear_bounds h1 h2 h3 h4
  have hL : (if isLeapYear y then 1 else 0) ≤ 1 := by split <;> omega
  unfold dayFromCivil daysBeforeYear at *
  omega

theorem fmtDate_const (c : Int) (hc : c.natAbs ≤ 86400000) {s : String} {n : Int}
    (h : dayNumber s = some n) : fmtDate (fun _ => c) s = some (n * 86400000 - c) := by
  have hb := dayNumber_bounds h
  unfold fmtDate timeClip
  simp only [h]
  rw [if_pos (by omega)]

theorem fmtDate_of_invalid (tz : Zone) {s : String} (h : dayNumber s = none) :
    fmtDate tz s = none := by
  simp [fmtDate, h]

theorem window_eq_calendarWindow (c : Int) (hc : c.natAbs ≤ 86400000) (sorted : List Entry)
    (cur : Entry) (hcur : validDate cur.date) (w : Int) (hw0 : 0 ≤ w) (hw : w ≤ 90000000) :
    window (fun _ => c) sorted (w : ℚ) cur = calendarWindow sorted w cur := by
  obtain ⟨nc, hnc⟩ := Option.isSome_iff_exists.mp hcur
  have hbc := dayNumber_bounds hnc
  unfold window calendarWindow
  simp only [fmtDate_const c hc hnc, newDate_sub_days]
  have hclip : timeClip (nc * 86400000 - c - w * 86400000)
      = some (nc * 86400000 - c - w * 86400000) := by
    unfold timeClip
    rw [if_pos (by omega)]
  rw [hclip]
  apply List.filter_congr
  intro e _
  cases he : dayNumber e.date with
  | none => simp [fmtDate_of_invalid _ he, dateGe, dateLe, hnc]
  | some ne =>
    simp only [fmtDate_const c hc he, dateGe, dateLe, hnc, Bool.and_eq_true,
      decide_eq_true_eq, Bool.decide_and]
    have a1 : (nc * 86400000 - c - w * 86400000 ≤ ne * 86400000 - c) ↔ (nc - w ≤ ne) := by
      constructor <;> intro h1 <;> omega
    have a2 : (ne * 86400000 - c ≤ nc * 86400000 - c) ↔ (ne ≤ nc) := by
      constructor <;> intro h1 <;> omega
    rw [decide_eq_decide.mpr a1, decide_eq_decide.mpr a2]

theorem foldl_add_calories (w : List Entry) (a : ℚ) :
    w.foldl (fun sum e => sum + e.calories) a = a + (w.map Entry.calories).sum := by
  induction w generalizing a with
  | nil => simp
  | cons x xs ih => simp [ih, add_assoc]

theorem avgIntake_eq_meanCalories (w : List Entry) : avgIntake w = meanCalories w := by
  unfold avgIntake meanCalories
  rw [foldl_add_calories, zero_add]
  split
  · rename_i h
    simp [List.length_eq_zero.mp h]
  · rfl

theorem calendarWindow_perm {l₁ l₂ : List Entry} (h : l₁.Perm l₂) (w : Int) (cur : Entry) :
    (calendarWindow l₁ w cur).Perm (calendarWindow l₂ w cur) :=
  h.filter _

/-- On a host whose offset from UTC never changes, for entries with valid dates and an
integer window size between 1 and 90 000 000 days, the point at each index of
`computeSeries` is that of the entry `cur` at that index of the sorted entries: its
`windowCount` is the number of entries dated from `windowSize` calendar days before `cur`
to `cur`, both ends included, and its `avgIntake` is the mean of their calories. -/
theorem computeSeries_window_of_fixed_offset (c : Int) (hc : c.natAbs ≤ 86400000)
    (entries : List Entry) (hvalid : ∀ e ∈ entries, validDate e.date) (g : ℚ) (w : Int)
    (hw1 : 1 ≤ w) (hw : w ≤ 90000000) (i : Nat) (p : SeriesPoint)
    (hp : (computeSeries (fun _ => c) entries g w)[i]? = some p) :
    ∃ cur, (sortEntries entries)[i]? = some cur ∧ cur ∈ entries ∧ p.date = cur.date ∧
      cur ∈ calendarWindow entries w cur ∧
      p.windowCount = (calendarWindow entries w cur).length ∧
      p.avgIntake = meanCalories (calendarWindow entries w cur) := by
  rw [computeSeries_eq_map, List.getElem?_map] at hp
  cases hcur : (sortEntries entries)[i]? with
  | none => simp [hcur] at hp
  | some cur =>
    simp only [hcur, Option.map_some', Option.some.injEq] at hp
    subst hp
    have hmem : cur ∈ entries :=
      (sortEntries_perm entries).mem_iff.mp (List.getElem?_mem hcur)
    have hwin := window_eq_calendarWindow c hc (sortEntries entries) cur (hvalid cur hmem) w
      (by omega) hw
    have hperm := calendarWindow_perm (sortEntries_perm entries) w cur
    refine ⟨cur, rfl, hmem, rfl, ?_, ?_, ?_⟩
    · obtain ⟨nc, hnc⟩ := Option.isSome_iff_exists.mp (hvalid cur hmem)
      unfold calendarWindow
      rw [List.mem_filter]
      refine ⟨hmem, ?_⟩
      simp only [hnc, decide_eq_true_eq]
      constructor <;> omega
    · simp only [seriesPoint, hwin]
      exact hperm.length_eq
    · simp only [seriesPoint, hwin, avgIntake_eq_meanCalories, meanCalories]
      rw [(hperm.map Entry.calories).sum_eq, hperm.length_eq]

/-! ## The estimate on a host without offset changes -/

theorem window_sublist (tz : Zone) (sorted : List Entry) (wd : ℚ) (cur : Entry) :
    (window tz sorted wd cur).Sublist sorted :=
  List.filter_sublist _

theorem window_mem_valid (tz : Zone) (sorted : List Entry) (wd : ℚ) (cur e : Entry)
    (h : e ∈ window tz sorted wd cur) : ∃ n, dayNumber e.date = some n := by
  unfold window at h
  rw [List.mem_filter] at h
  cases hd : dayNumber e.date with
  | none =>
    have := h.2
    simp [fmtDate_of_invalid tz hd, dateGe] at this
  | some n => exact ⟨n, rfl⟩

theorem window_sorted (tz : Zone) (entries : List Entry) (wd : ℚ) (cur : Entry) :
    (window tz (sortEntries entries) wd cur).Pairwise (fun a b => a.date.data ≤ b.date.data) :=
  ((sortEntries_sorted entries).sublist (window_sublist tz _ wd cur)).imp
    (fun {a b} h => (dateOrd_iff a b).mp h)

theorem pairwise_head_getLast {l : List Entry} {first last : Entry}
    (hs : l.Pairwise (fun a b => a.date.data ≤ b.date.data)) (hf : l.head? = some first)
    (hl : l.getLast? = some last) :
    ∀ e ∈ l, first.date.data ≤ e.date.data ∧ e.date.data ≤ last.date.data := by
  intro e he
  constructor
  · cases l with
    | nil => simp at hf
    | cons x xs =>
      simp only [List.head?_cons, Option.some.injEq] at hf
      subst hf
      rcases List.mem_cons.mp he with h1 | h1
      · rw [h1]
      · exact (List.pairwise_cons.mp hs).1 e h1
  · obtain ⟨ys, hy⟩ := List.getLast?_eq_some_iff.mp hl
    subst hy
    rcases List.mem_append.mp he with h1 | h1
    · exact (List.pairwise_append.mp hs).2.2 e h1 last (by simp)
    · have : e = last := by simpa using h1
      rw [this]

theorem spanDays_const (c : Int) (hc : c.natAbs ≤ 86400000) (first last : Entry) (nf nl : Int)
    (hf : dayNumber first.date = some nf) (hl : dayNumber last.date = some nl) :
    spanDays (fun _ => c) first last = max 1 ((nl - nf : Int) : ℚ) := by
  unfold spanDays
  simp only [fmtDate_const c hc hl, fmtDate_const c hc hf]
  congr 1
  have : (nl * 86400000 - c - (nf * 86400000 - c) : Int) = (nl - nf) * 86400000 := by ring
  rw [this]
  push_cast
  field_simp

/-- On a host whose offset from UTC never changes, for the point at each index of
`computeSeries`, built for the entry `cur` at that index of the sorted entries: a window
of exactly one entry gives `tdee = avgIntake`, the calories of that entry; a window of two
or more entries, whose first and last entries are its earliest and latest, gives
`tdee = avgIntake + ((last.weight - first.weight) / max 1 days) * 7700` with `days` the
number of calendar days from the date of `first` to the date of `last`. -/
theorem computeSeries_tdee_of_fixed_offset (c : Int) (hc : c.natAbs ≤ 86400000)
    (entries : List Entry) (g wd : ℚ) (i : Nat) (p : SeriesPoint)
    (hp : (computeSeries (fun _ => c) entries g wd)[i]? = some p) :
    ∃ cur, (sortEntries entries)[i]? = some cur ∧ p.date = cur.date ∧
      p.windowCount = (window (fun _ => c) (sortEntries entries) wd cur).length ∧
      (∀ e, window (fun _ => c) (sortEntries entries) wd cur = [e] →
        p.tdee = e.calories ∧ p.avgIntake = e.calories) ∧
      (2 ≤ p.windowCount → ∃ first last nf nl,
        (window (fun _ => c) (sortEntries entries) wd cur).head? = some first ∧
        (window (fun _ => c) (sortEntries entries) wd cur).getLast? = some last ∧
        dayNumber first.date = some nf ∧ dayNumber last.date = some nl ∧
        (∀ e ∈ window (fun _ => c) (sortEntries entries) wd cur, ∀ n,
          dayNumber e.date = some n → nf ≤ n ∧ n ≤ nl) ∧
        p.tdee = p.avgIntake
          + ((last.weight - first.weight) / max 1 ((nl - nf : Int) : ℚ)) * 7700) := by
  rw [computeSeries_eq_map, List.getElem?_map] at hp
  cases hcur : (sortEntries entries)[i]? with
  | none => simp [hcur] at hp
  | some cur =>
    simp only [hcur, Option.map_some', Option.some.injEq] at hp
    subst hp
    refine ⟨cur, rfl, rfl, rfl, ?_, ?_⟩
    · intro e he
      simp [seriesPoint, he, tdeeOf, avgIntake]
    · intro h2
      simp only [seriesPoint] at h2
      generalize hW : window (fun _ => c) (sortEntries entries) wd cur = W at h2
      have hsorted : W.Pairwise (fun a b => a.date.data ≤ b.date.data) := by
        rw [← hW]; exact window_sorted _ entries wd cur
      have hvalid : ∀ e ∈ W, ∃ n, dayNumber e.date = some n := by
        intro e he; rw [← hW] at he; exact window_mem_valid _ _ _ _ e he
      obtain ⟨first, hfirst⟩ : ∃ first, W.head? = some first := by
        cases W with
        | nil => simp at h2
        | cons x xs => exact ⟨x, rfl⟩
      obtain ⟨last, hlast⟩ : ∃ last, W.getLast? = some last := by
        cases hl : W.getLast? with
        | none => rw [List.getLast?_eq_none_iff] at hl; subst hl; simp at h2
        | some last => exact ⟨last, rfl⟩
      have hfm : first ∈ W := List.mem_of_mem_head? hfirst
      have hlm : last ∈ W := List.mem_of_mem_getLast? hlast
      obtain ⟨nf, hnf⟩ := hvalid first hfm
      obtain ⟨nl, hnl⟩ := hvalid last hlm
      refine ⟨first, last, nf, nl, hfirst, hlast, hnf, hnl, ?_, ?_⟩
      · intro e he n hn
        have := pairwise_head_getLast hsorted hfirst hlast e he
        exact ⟨(data_le_iff_dayNumber_le hnf hn).mp this.1,
          (data_le_iff_dayNumber_le hn hnl).mp this.2⟩
      · simp only [seriesPoint, hW]
        rw [tdeeOf_of_two _ W first last hfirst hlast h2, spanDays_const c hc first last nf nl
          hnf hnl]
        simp [KCALS_PER_KG]

/-! ## What `parseCSV` returns when it does not throw -/

theorem rowEntry_of_cols (iD iW iC : Nat) (line a b c : List Char)
    (ha : ((splitOn ',' line).map trim)[iD]? = some a)
    (hb : ((splitOn ',' line).map trim)[iW]? = some b)
    (hc : ((splitOn ',' line).map trim)[iC]? = some c) :
    rowEntry iD iW iC line
      = match matchDate a, parseFloatChars (stripNonNumeric b),
              parseFloatChars (stripNonNumeric c) with
        | some date, some weight, some calories =>
          some { date := String.mk date, weight := weight, calories := calories }
        | _, _, _ => none := by
  unfold rowEntry
  simp only [ha, hb, hc] <;> rfl

theorem parseRows_of_readable (iD iW iC : Nat) (hDW : iD ≠ iW) (hWC : iW ≠ iC) (hDC : iD ≠ iC)
    (lines : List (List Char)) (h : ∀ line ∈ lines, rowReadable iD iW iC line) :
    parseRows iD iW iC lines = some (lines.filterMap (rowEntry iD iW iC)) := by
  induction lines with
  | nil => rfl
  | cons line rest ih =>
    have hrest := ih (fun l hl => h l (List.mem_cons_of_mem _ hl))
    have hline := h line (List.mem_cons_self _ _)
    unfold parseRows
    simp only
    by_cases hlen : ((splitOn ',' line).map trim).length < 3
    · rw [if_pos hlen, hrest]
      have hnone : rowEntry iD iW iC line = none := by
        unfold rowEntry
        simp only
        have hmax : ((splitOn ',' line).map trim).length ≤ iD
            ∨ ((splitOn ',' line).map trim).length ≤ iW
            ∨ ((splitOn ',' line).map trim).length ≤ iC := by omega
        rcases hmax with h1 | h1 | h1
        · rw [List.getElem?_eq_none h1]
        · rw [List.getElem?_eq_none h1]
          split <;> simp_all
        · rw [List.getElem?_eq_none h1]
          split <;> simp_all
      rw [List.filterMap_cons, hnone]
    · rw [if_neg hlen]
      rcases hline with h1 | ⟨h1, h2, h3⟩
      · exact absurd h1 hlen
      · rw [List.filterMap_cons, rowEntry_of_cols iD iW iC line _ _ _
          (List.getElem?_eq_getElem h1) (List.getElem?_eq_getElem h2)
          (List.getElem?_eq_getElem h3)]
        simp only [List.getElem?_eq_getElem h1, List.getElem?_eq_getElem h2,
          List.getElem?_eq_getElem h3, hrest]
        split <;> simp_all

theorem parseRows_of_unreadable (iD iW iC : Nat) (lines : List (List Char))
    (h : ∃ line ∈ lines, ¬ rowReadable iD iW iC line) :
    parseRows iD iW iC lines = none := by
  induction lines with
  | nil => simp at h
  | cons line rest ih =>
    unfold parseRows
    simp only
    by_cases hlen : ((splitOn ',' line).map trim).length < 3
    · rw [if_pos hlen]
      apply ih
      obtain ⟨l, hl, hn⟩ := h
      rcases List.mem_cons.mp hl with h1 | h1
      · subst h1
        exact absurd (Or.inl hlen) hn
      · exact ⟨l, h1, hn⟩
    · rw [if_neg hlen]
      by_cases hr : rowReadable iD iW iC line
      · rcases hr with h1 | ⟨h1, h2, h3⟩
        · exact absurd h1 hlen
        · have hrest : parseRows iD iW iC rest = none := by
            apply ih
            obtain ⟨l, hl, hn⟩ := h
            rcases List.mem_cons.mp hl with h4 | h4
            · subst h4
              exact absurd (Or.inr ⟨h1, h2, h3⟩) hn
            · exact ⟨l, h4, hn⟩
          simp only [List.getElem?_eq_getElem h1, List.getElem?_eq_getElem h2,
            List.getElem?_eq_getElem h3, hrest]
          split <;> simp
      · unfold rowReadable at hr
        rw [not_or, not_and_or, not_and_or] at hr
        rcases hr.2 with h1 | h1 | h1
        · rw [List.getElem?_eq_none (by omega)]
        · rw [List.getElem?_eq_none (n := iW) (by omega)]
          split <;> simp_all
        · rw [List.getElem?_eq_none (n := iC) (by omega)]
          split <;> simp_all

theorem findIndex_some {α : Type} (p : α → Bool) (l : List α) (i : Nat)
    (h : findIndex p l = some i) : ∃ x, l[i]? = some x ∧ p x = true := by
  induction l generalizing i with
  | nil => simp [findIndex] at h
  | cons y ys ih =>
    unfold findIndex at h
    by_cases hy : p y = true
    · rw [if_pos hy] at h
      simp only [Option.some.injEq] at h
      subst h
      exact ⟨y, by simp, hy⟩
    · rw [if_neg hy] at h
      cases hf : findIndex p ys with
      | none => simp [hf] at h
      | some j =>
        simp only [hf, Option.map_some', Option.some.injEq] at h
        subst h
        obtain ⟨x, hx, hpx⟩ := ih j hf
        exact ⟨x, by simpa using hx, hpx⟩

/-- For a text whose header has a date column (index `iD`), a weight column (`iW`) and a
calories column (`iC`): `parseCSV` returns exactly when every data line has fewer than three
columns or a column at each of the three indices, and it then returns, in line order, the
entries of the lines whose date field holds a `YYYY-MM-DD`-shaped substring and whose
weight and calories fields parse to finite numbers; a single other line makes it throw. -/
theorem parseCSV_of_header (text : String) (header : List Char) (rows : List (List Char))
    (iD iW iC : Nat)
    (hl : splitOn '\n' (trim (text.data.filter (fun c => c ≠ '\r'))) = header :: rows)
    (hD : findIndex (fun h => h = "date".data)
      ((splitOn ',' header).map (fun h => toLowerCase (trim h))) = some iD)
    (hW : findIndex (fun h => h = "weight_kg".data ∨ h = "weight".data)
      ((splitOn ',' header).map (fun h => toLowerCase (trim h))) = some iW)
    (hC : findIndex (fun h => h = "calories_kcal".data ∨ h = "calories".data)
      ((splitOn ',' header).map (fun h => toLowerCase (trim h))) = some iC) :
    ((∀ line ∈ rows, rowReadable iD iW iC line) →
        parseCSV text = some (rows.filterMap (rowEntry iD iW iC)))
    ∧ ((∃ line ∈ rows, ¬ rowReadable iD iW iC line) → parseCSV text = none) := by
  have hp : parseCSV text = parseRows iD iW iC rows := by
    unfold parseCSV
    simp only [hl, hD, hW, hC]
  obtain ⟨xd, hxd, hpd⟩ := findIndex_some _ _ _ hD
  obtain ⟨xw, hxw, hpw⟩ := findIndex_some _ _ _ hW
  obtain ⟨xc, hxc, hpc⟩ := findIndex_some _ _ _ hC
  simp only [decide_eq_true_eq] at hpd hpw hpc
  have hDW : iD ≠ iW := by
    intro h; subst h
    rw [hxd] at hxw
    simp only [Option.some.injEq] at hxw
    subst hxw; subst hpd
    revert hpw; decide
  have hWC : iW ≠ iC := by
    intro h; subst h
    rw [hxw] at hxc
    simp only [Option.some.injEq] at hxc
    subst hxc
    rcases hpw with h1 | h1 <;> subst h1 <;> revert hpc <;> decide
  have hDC : iD ≠ iC := by
    intro h; subst h
    rw [hxd] at hxc
    simp only [Option.some.injEq] at hxc
    subst hxc; subst hpd
    revert hpc; decide
  rw [hp]
  exact ⟨parseRows_of_readable iD iW iC hDW hWC hDC rows, parseRows_of_unreadable iD iW iC rows⟩

/-- A collection whose numbers print without exponent does come back: the entries
(2024-01-08, 79, 2000) and (2024-01-01, 80.25, 1950.5) are exported in chronological order
and `parseCSV` reads the export back as the sorted collection. -/
theorem exportCSV_read_back_example :
    exportCSV [⟨"2024-01-08", 79, 2000⟩, ⟨"2024-01-01", 321 / 4, 3901 / 2⟩]
      = "date,weight_kg,calories_kcal\n2024-01-01,80.25,1950.5\n2024-01-08,79,2000"
    ∧ parseCSV (exportCSV [⟨"2024-01-08", 79, 2000⟩, ⟨"2024-01-01", 321 / 4, 3901 / 2⟩])
      = some (sortEntries [⟨"2024-01-08", 79, 2000⟩, ⟨"2024-01-01", 321 / 4, 3901 / 2⟩]) := by
  have hs : "2024-01-01".data < "2024-01-08".data := by decide
  have hs' : ¬ "2024-01-08".data < "2024-01-01".data := by decide
  have hsort : sortEntries [⟨"2024-01-08", 79, 2000⟩, ⟨"2024-01-01", 321 / 4, 3901 / 2⟩]
      = [⟨"2024-01-01", 321 / 4, 3901 / 2⟩, ⟨"2024-01-08", 79, 2000⟩] := by
    simp [sortEntries, List.insertionSort, List.orderedInsert, dateOrd, localeCompare, hs, hs']
  have n1 : numberToString (79 : ℚ) = "79" := by
    have := numberToString_ofNat_pos 79 (by norm_num)
    simp only [Nat.cast_ofNat] at this
    rw [this]; decide
  have n2 : numberToString (2000 : ℚ) = "2000" := by
    have := numberToString_ofNat_pos 2000 (by norm_num)
    simp only [Nat.cast_ofNat] at this
    rw [this]; decide
  have n3 : numberToString (321 / 4 : ℚ) = "80.25" := by
    have hn : ((321 : ℤ) / (4 : ℤ) : ℚ).num = 321 :=
      Rat.num_div_eq_of_coprime (by norm_num) (by decide)
    have hd : (((321 : ℤ) / (4 : ℤ) : ℚ).den : ℤ) = 4 :=
      Rat.den_div_eq_of_coprime (by norm_num) (by decide)
    have hd' : ((321 : ℤ) / (4 : ℤ) : ℚ).den = 4 := by exact_mod_cast hd
    simp only [Int.cast_ofNat] at hn hd'
    unfold numberToString
    rw [hn, hd']
    decide
  have n4 : numberToString (3901 / 2 : ℚ) = "1950.5" := by
    have hn : ((3901 : ℤ) / (2 : ℤ) : ℚ).num = 3901 :=
      Rat.num_div_eq_of_coprime (by norm_num) (by decide)
    have hd : (((3901 : ℤ) / (2 : ℤ) : ℚ).den : ℤ) = 2 :=
      Rat.den_div_eq_of_coprime (by norm_num) (by decide)
    have hd' : ((3901 : ℤ) / (2 : ℤ) : ℚ).den = 2 := by exact_mod_cast hd
    simp only [Int.cast_ofNat] at hn hd'
    unfold numberToString
    rw [hn, hd']
    decide
  have hx : exportCSV [⟨"2024-01-08", 79, 2000⟩, ⟨"2024-01-01", 321 / 4, 3901 / 2⟩]
      = "date,weight_kg,calories_kcal\n2024-01-01,80.25,1950.5\n2024-01-08,79,2000" := by
    unfold exportCSV
    simp only [hsort, List.map, n1, n2, n3, n4]
    decide
  have hl : splitOn '\n' (trim
      ("date,weight_kg,calories_kcal\n2024-01-01,80.25,1950.5\n2024-01-08,79,2000".data.filter
        (fun c => c ≠ '\r')))
      = ["date,weight_kg,calories_kcal".data, "2024-01-01,80.25,1950.5".data,
         "2024-01-08,79,2000".data] := by decide
  have hh : (splitOn ',' "date,weight_kg,calories_kcal".data).map
      (fun h => toLowerCase (trim h))
      = ["date".data, "weight_kg".data, "calories_kcal".data] := by decide
  have r1 : (splitOn ',' "2024-01-01,80.25,1950.5".data).map trim
      = ["2024-01-01".data, "80.25".data, "1950.5".data] := by decide
  have r2 : (splitOn ',' "2024-01-08,79,2000".data).map trim
      = ["2024-01-08".data, "79".data, "2000".data] := by decide
  have m1 : matchDate "2024-01-01".data = some "2024-01-01".data := by decide
  have m2 : matchDate "2024-01-08".data = some "2024-01-08".data := by decide
  have p1 := parseFloatChars_of_decimal (stripNonNumeric "80.25".data) ⟨false, 8025, -2⟩
    (by decide) (by decide)
  have p2 := parseFloatChars_of_decimal (stripNonNumeric "1950.5".data) ⟨false, 19505, -1⟩
    (by decide) (by decide)
  have p3 := parseFloatChars_of_decimal (stripNonNumeric "79".data) ⟨false, 79, 0⟩
    (by decide) (by decide)
  have p4 := parseFloatChars_of_decimal (stripNonNumeric "2000".data) ⟨false, 2000, 0⟩
    (by decide) (by decide)
  refine ⟨hx, ?_⟩
  rw [hx, hsort]
  unfold parseCSV
  rw [hl]
  simp only [hh]
  simp [findIndex, parseRows, r1, r2, m1, m2, p1, p2, p3, p4, Decimal.toRat, pow10]
  norm_num

/-! ## The window size in the settings (C11) -/

theorem isPositiveInteger_default : isPositiveInteger defaultSettings.windowDays :=
  ⟨7, by norm_num, by simp [defaultSettings]⟩

/-- C11, as stated, fails twice.  The save-settings handler reads the window field with
`parseInt`: the fractional text `14.5` is not rejected, the settings change to a window of
14 days.  The JSON import copies the imported settings without any test: from the defaults
it writes the window sizes 0, -3 and 2.5, none of them a positive integer. -/
theorem c11_fraction_truncated_and_import_unchecked :
    saveSettingsClick defaultSettings "-0.5" "14.5"
      = { goalKgPerWeek := .num (-1 / 2), windowDays := .num 14 }
    ∧ saveSettingsClick defaultSettings "-0.5" "14.5" ≠ defaultSettings
    ∧ importJSONSettings defaultSettings (some ⟨none, some (.num 0)⟩)
      = { goalKgPerWeek := .num (-1 / 2), windowDays := .num 0 }
    ∧ ¬ isPositiveInteger (.num 0)
    ∧ importJSONSettings defaultSettings (some ⟨none, some (.num (-3))⟩)
      = { goalKgPerWeek := .num (-1 / 2), windowDays := .num (-3) }
    ∧ ¬ isPositiveInteger (.num (-3))
    ∧ importJSONSettings defaultSettings (some ⟨none, some (.num (5 / 2))⟩)
      = { goalKgPerWeek := .num (-1 / 2), windowDays := .num (5 / 2) }
    ∧ ¬ isPositiveInteger (.num (5 / 2)) := by
  have hg : parseFloat "-0.5" = some (-1 / 2) := by
    have := parseFloatChars_of_decimal "-0.5".data ⟨true, 5, -1⟩ (by decide) (by decide)
    simp [parseFloat, this, Decimal.toRat, pow10]
    norm_num
  have hw : parseInt "14.5" = some 14 := by decide
  have hs : saveSettingsClick defaultSettings "-0.5" "14.5"
      = { goalKgPerWeek := .num (-1 / 2), windowDays := .num 14 } := by
    simp [saveSettingsClick, hg, hw]
  refine ⟨hs, ?_, ?_, ?_, ?_, ?_, ?_, ?_⟩
  · rw [hs]
    intro h
    have h2 := congrArg RawSettings.windowDays h
    simp only [defaultSettings, JSPrim.num.injEq] at h2
    norm_num at h2
  · simp [importJSONSettings, defaultSettings]
  · rintro ⟨n, hn, h⟩
    simp only [JSPrim.num.injEq] at h
    have : (n : ℚ) = 0 := h.symm
    have : n = 0 := by exact_mod_cast this
    omega
  · simp [importJSONSettings, defaultSettings]
  · rintro ⟨n, hn, h⟩
    simp only [JSPrim.num.injEq] at h
    have h1 : (n : ℚ) = ((-3 : Int) : ℚ) := by rw [← h]; norm_num
    have : n = -3 := by exact_mod_cast h1
    omega
  · simp [importJSONSettings, defaultSettings]
  · rintro ⟨n, hn, h⟩
    simp only [JSPrim.num.injEq] at h
    have h1 : ((2 * n : Int) : ℚ) = ((5 : Int) : ℚ) := by
      push_cast; rw [← h]; norm_num
    have : 2 * n = 5 := by exact_mod_cast h1
    omega

/-- C11, amended: from settings whose window size is a positive integer, save-settings and
reset to defaults leave the window size a positive integer.  Save-settings reads the goal
with `parseFloat` and the window with `parseInt`: when the goal is not finite, or the
window text has no leading integer, or that integer is zero or negative, the settings are
left untouched; otherwise the settings become that goal and that integer (a fractional
text is cut to its integer part).  Reset, once confirmed, restores the window size 7.  A
JSON import whose settings object is absent or has no window size leaves the window size
as it is. -/
theorem c11_window_stays_positive_integer (settings : RawSettings)
    (h : isPositiveInteger settings.windowDays) :
    (∀ goalText windowText : String,
        isPositiveInteger (saveSettingsClick settings goalText windowText).windowDays
        ∧ ((parseFloat goalText = none ∨ parseInt windowText = none ∨
              ∃ n : Int, parseInt windowText = some n ∧ n < 1) →
            saveSettingsClick settings goalText windowText = settings)
        ∧ (∀ (g : ℚ) (n : Int), parseFloat goalText = some g →
            parseInt windowText = some n → 1 ≤ n →
            saveSettingsClick settings goalText windowText
              = { goalKgPerWeek := .num g, windowDays := .num (n : ℚ) }))
    ∧ (∀ (confirmed : Bool) (entries : List RawEntry),
        isPositiveInteger (clearAllData confirmed entries settings).2.windowDays
        ∧ (clearAllData true entries settings).2 = defaultSettings
        ∧ (clearAllData false entries settings).2 = settings)
    ∧ importJSONSettings settings none = settings
    ∧ (∀ goal : Option JSPrim,
        (importJSONSettings settings (some ⟨goal, none⟩)).windowDays = settings.windowDays) := by
  refine ⟨?_, ?_, rfl, fun _ => rfl⟩
  · intro goalText windowText
    refine ⟨?_, ?_, ?_⟩
    · unfold saveSettingsClick
      split
      · rename_i g n _ _
        split
        · exact h
        · rename_i hn
          exact ⟨n, by omega, rfl⟩
      · exact h
    · rintro (hg | hw | ⟨n, hw, hn⟩)
      · simp [saveSettingsClick, hg]
      · unfold saveSettingsClick
        rw [hw]
        split <;> simp_all
      · unfold saveSettingsClick
        rw [hw]
        split
        · rename_i g n' _ hn'
          simp only [Option.some.injEq] at hn'
          subst hn'
          rw [if_pos hn]
        · rfl
    · intro g n hg hw hn
      simp only [saveSettingsClick, hg, hw]
      rw [if_neg (by omega)]
  · intro confirmed entries
    refine ⟨?_, rfl, rfl⟩
    cases confirmed
    · exact h
    · exact isPositiveInteger_default

/-- C11 amended, at the default settings: the window text `0` is rejected and the settings
are left untouched. -/
theorem c11_window_stays_positive_integer_witness :
    isPositiveInteger defaultSettings.windowDays
    ∧ isPositiveInteger (saveSettingsClick defaultSettings "-0.5" "0").windowDays
    ∧ saveSettingsClick defaultSettings "-0.5" "0" = defaultSettings :=
  ⟨⟨7, by norm_num, by simp [defaultSettings]⟩,
   ((c11_window_stays_positive_integer defaultSettings
      ⟨7, by norm_num, by simp [defaultSettings]⟩).1 "-0.5" "0").1,
   ((c11_window_stays_positive_integer defaultSettings
      ⟨7, by norm_num, by simp [defaultSettings]⟩).1 "-0.5" "0").2.1
      (Or.inr (Or.inr ⟨0, by decide, by norm_num⟩))⟩

end TDEE
